import Mathlib

/-!
Verification of the Conway's Game of Life engine (`src/conway`): a shallow
embedding of the bit-packed `Grid` (grid.rs), the pattern library
(patterns.rs) and the `PatternAnalyzer` classification loop (analyzer.rs),
followed by theorems settling the specified properties.

Machine integers are modelled as `Nat` with explicit `% 2 ^ 64` masks where
the Rust code relies on the `u64` width; fallible operations return
`Except`; the Rust panics that can arise from slice indexing are modelled
as `Except.error`.
-/

namespace Conway

/-- Boundary condition types (config.rs). -/
inductive BoundaryType where
  | Wrap
  | Fixed
deriving DecidableEq

/-- Bit-packed grid (grid.rs): each 64-bit word stores 64 cells, `stride`
words per row. Words are `Nat`s kept below `2 ^ 64` by well-formedness. -/
structure Grid where
  width : Nat
  height : Nat
  stride : Nat
  cells : List Nat
  boundary : BoundaryType
deriving DecidableEq

/-- `Grid::new`: stride rounds the width up to the nearest 64. -/
def Grid.new (width height : Nat) (boundary : BoundaryType) : Grid :=
  { width := width
    height := height
    stride := (width + 63) / 64
    cells := List.replicate ((width + 63) / 64 * height) 0
    boundary := boundary }

/-- `Grid::get`: false out of range, otherwise tests the packed bit. -/
def Grid.get (g : Grid) (x y : Nat) : Bool :=
  if g.width ≤ x ∨ g.height ≤ y then false
  else
    let bitIndex := x % 64
    let chunkIndex := y * g.stride + x / 64
    if g.cells.length ≤ chunkIndex then false
    else (g.cells.getD chunkIndex 0 &&& (1 <<< bitIndex)) != 0

/-- `Grid::set`: silent no-op out of range; sets or clears the packed bit.
`!(1u64 << bit)` is the 64-bit complement `(2 ^ 64 - 1) ^^^ (1 <<< bit)`. -/
def Grid.set (g : Grid) (x y : Nat) (state : Bool) : Grid :=
  if g.width ≤ x ∨ g.height ≤ y then g
  else
    let bitIndex := x % 64
    let chunkIndex := y * g.stride + x / 64
    if g.cells.length ≤ chunkIndex then g
    else if state then
      let word := g.cells.getD chunkIndex 0 ||| (1 <<< bitIndex)
      { g with cells := g.cells.set chunkIndex word }
    else
      let word := g.cells.getD chunkIndex 0 &&& ((2 ^ 64 - 1) ^^^ (1 <<< bitIndex))
      { g with cells := g.cells.set chunkIndex word }

/-- `Grid::toggle`: silent no-op out of range; XORs the packed bit. -/
def Grid.toggle (g : Grid) (x y : Nat) : Grid :=
  if g.width ≤ x ∨ g.height ≤ y then g
  else
    let bitIndex := x % 64
    let chunkIndex := y * g.stride + x / 64
    if g.cells.length ≤ chunkIndex then g
    else
      let word := g.cells.getD chunkIndex 0 ^^^ (1 <<< bitIndex)
      { g with cells := g.cells.set chunkIndex word }

/-- The eight Moore-neighborhood offsets, in the source's loop order
(`dy` outer, `dx` inner, skipping `(0,0)`). -/
def neighborOffsets : List (Int × Int) :=
  [(-1, -1), (0, -1), (1, -1), (-1, 0), (1, 0), (-1, 1), (0, 1), (1, 1)]

/-- One offset's contribution to `Grid::count_neighbors`: under `Wrap` the
coordinate is reduced with `rem_euclid` (`Int.emod`); under `Fixed` an
offset landing outside the grid is skipped (contributes nothing). -/
def Grid.neighborContrib (g : Grid) (x y : Nat) (d : Int × Int) : Nat :=
  match g.boundary with
  | BoundaryType.Wrap =>
      if g.get (((x : Int) + d.1).emod (g.width : Int)).toNat
          (((y : Int) + d.2).emod (g.height : Int)).toNat then 1 else 0
  | BoundaryType.Fixed =>
      if (x : Int) + d.1 < 0 ∨ (g.width : Int) ≤ (x : Int) + d.1 then 0
      else if (y : Int) + d.2 < 0 ∨ (g.height : Int) ≤ (y : Int) + d.2 then 0
      else if g.get ((x : Int) + d.1).toNat ((y : Int) + d.2).toNat then 1 else 0

/-- `Grid::count_neighbors`: sum of the eight offsets' contributions. -/
def Grid.count_neighbors (g : Grid) (x y : Nat) : Nat :=
  (neighborOffsets.map (g.neighborContrib x y)).sum

/-- The transition rule match from `Grid::update`. -/
def lifeRule (isAlive : Bool) (neighbors : Nat) : Bool :=
  match isAlive, neighbors with
  | true, 2 | true, 3 => true
  | false, 3 => true
  | _, _ => false

/-- Whether `Grid::update` will set cell `(x, y)` alive, read from the
pre-update state only. -/
def Grid.willBeAlive (g : Grid) (x y : Nat) : Bool :=
  lifeRule (g.get x y) (g.count_neighbors x y)

/-- All in-range coordinates, `y` outer and `x` inner, matching the nested
loops of grid.rs and analyzer.rs. -/
def coordsList (w h : Nat) : List (Nat × Nat) :=
  (List.range h).flatMap fun y => (List.range w).map fun x => (x, y)

/-- The `(chunk_index, bit_mask)` updates one row of `Grid::update`
pushes: one per cell of row `y` that will be alive. -/
def Grid.rowUpdates (g : Grid) (y : Nat) : List (Nat × Nat) :=
  ((List.range g.width).filter fun x => g.willBeAlive x y).map
    fun x => (y * g.stride + x / 64, 1 <<< (x % 64))

/-- Merging a list of `(chunk_index, bit_mask)` updates into a cell array:
`new_cells[chunk_index] |= bit_mask` for each update in order. -/
def applyUpdates (ups : List (Nat × Nat)) (cs : List Nat) : List Nat :=
  ups.foldl (fun cs u => cs.set u.1 (cs.getD u.1 0 ||| u.2)) cs

/-- `Grid::update`: per-row updates are computed against the frozen
pre-update state and merged into a fresh zeroed array, which then replaces
the current cells. -/
def Grid.update (g : Grid) : Grid :=
  let results := (List.range g.height).map g.rowUpdates
  let newCells :=
    results.foldl (fun cs row => applyUpdates row cs)
      (List.replicate g.cells.length 0)
  { g with cells := newCells }

/-- `Grid::clear`: every word becomes 0. -/
def Grid.clear (g : Grid) : Grid :=
  { g with cells := g.cells.map fun _ => 0 }

/-- `Grid::randomize`, with the `thread_rng` draws supplied by an oracle
`rnd x y`: sets every in-range cell in loop order. -/
def Grid.randomize (g : Grid) (rnd : Nat → Nat → Bool) : Grid :=
  (coordsList g.width g.height).foldl (fun g' p => g'.set p.1 p.2 (rnd p.1 p.2)) g

/-- `u64::count_ones`: the number of set bits of a 64-bit word. -/
def count_ones64 (n : Nat) : Nat :=
  ((List.range 64).filter fun b => n.testBit b).length

/-- `Grid::count_alive`: sum of the per-word population counts. -/
def Grid.count_alive (g : Grid) : Nat :=
  (g.cells.map count_ones64).sum

/-- `Grid::dimensions`. -/
def Grid.dimensions (g : Grid) : Nat × Nat :=
  (g.width, g.height)

/-- Well-formedness maintained by construction in grid.rs: the stride and
cell-array length match the dimensions and every word fits in a `u64`. -/
def Grid.WF (g : Grid) : Prop :=
  g.stride = (g.width + 63) / 64 ∧
  g.cells.length = g.stride * g.height ∧
  ∀ c ∈ g.cells, c < 2 ^ 64

instance (g : Grid) : Decidable g.WF := by
  unfold Grid.WF
  infer_instance

/-- Padding invariant: every stored bit whose position encodes a column
`x ≥ width` is zero. Bit `b` of word `i` encodes the cell
`((i % stride) * 64 + b, i / stride)`. -/
def Grid.PadClear (g : Grid) : Prop :=
  ∀ i, i < g.cells.length → ∀ b, b < 64 →
    g.width ≤ i % g.stride * 64 + b → (g.cells.getD i 0).testBit b = false

instance (g : Grid) : Decidable g.PadClear := by
  unfold Grid.PadClear
  have : ∀ i, Decidable (i < g.cells.length → ∀ b, b < 64 →
      g.width ≤ i % g.stride * 64 + b → (g.cells.getD i 0).testBit b = false) := by
    intro i
    infer_instance
  exact Nat.decidableBallLT g.cells.length fun i _ =>
    ∀ b, b < 64 → g.width ≤ i % g.stride * 64 + b → (g.cells.getD i 0).testBit b = false

/-- The grids reachable through the public constructors and mutators of
grid.rs (`randomize`'s random draws abstracted by an oracle). -/
inductive Grid.Reachable : Grid → Prop where
  | new (w h : Nat) (b : BoundaryType) : Grid.Reachable (Grid.new w h b)
  | set (g : Grid) (x y : Nat) (s : Bool) :
      Grid.Reachable g → Grid.Reachable (g.set x y s)
  | toggle (g : Grid) (x y : Nat) :
      Grid.Reachable g → Grid.Reachable (g.toggle x y)
  | clear (g : Grid) : Grid.Reachable g → Grid.Reachable g.clear
  | randomize (g : Grid) (rnd : Nat → Nat → Bool) :
      Grid.Reachable g → Grid.Reachable (g.randomize rnd)
  | update (g : Grid) : Grid.Reachable g → Grid.Reachable g.update

/-! ### Persistence (grid.rs `save_to_file` / `load_from_file`)

A file is modelled as the list of its bytes (each `< 256`). -/

/-- Little-endian encoding of `n` on `k` bytes (`to_le_bytes`). -/
def natToLE : Nat → Nat → List Nat
  | 0, _ => []
  | k + 1, n => n % 256 :: natToLE k (n / 256)

/-- Little-endian decoding of a byte list (`from_le_bytes`). -/
def leToNat : List Nat → Nat
  | [] => 0
  | b :: bs => b + 256 * leToNat bs

/-- I/O errors surfaced by `load_from_file`: `eof` stands for the
`read_exact` failure on a truncated file, `invalidData` for the
`ErrorKind::InvalidData` dimension mismatch. -/
inductive IOError where
  | eof
  | invalidData (msg : String)
deriving DecidableEq

/-- `read_exact` on a byte list: take `k` bytes or fail. -/
def readExact (k : Nat) (bs : List Nat) : Option (List Nat × List Nat) :=
  if k ≤ bs.length then some (bs.take k, bs.drop k) else none

/-- `Grid::save_to_file`: width and height as `u32` little-endian, then
every cell word as `u64` little-endian. -/
def Grid.save_to_file (g : Grid) : List Nat :=
  natToLE 4 (g.width % 2 ^ 32) ++ natToLE 4 (g.height % 2 ^ 32) ++
    (g.cells.map fun c => natToLE 8 c).flatten

/-- The cell-reading loop of `load_from_file`: overwrites the words one by
one, so a short file leaves a prefix overwritten (as in the source). -/
def loadWords : List Nat → List Nat → Except IOError Unit × List Nat
  | [], _ => (Except.ok (), [])
  | c :: rest, bs =>
      match readExact 8 bs with
      | none => (Except.error IOError.eof, c :: rest)
      | some (wb, bs') =>
          let (r, rest') := loadWords rest bs'
          (r, leToNat wb :: rest')

/-- The `InvalidData` message of `load_from_file`, naming the file's
dimension pair and the grid's dimension pair. -/
def mismatchMsg (w h gw gh : Nat) : String :=
  "File dimensions (" ++ toString w ++ ", " ++ toString h ++
    ") don't match grid dimensions (" ++ toString gw ++ ", " ++ toString gh ++ ")"

/-- `Grid::load_from_file`: returns the call's result together with the
grid as left by the call (the source mutates `self`). -/
def Grid.load_from_file (g : Grid) (bs : List Nat) : Except IOError Unit × Grid :=
  match readExact 4 bs with
  | none => (Except.error IOError.eof, g)
  | some (wb, bs1) =>
      match readExact 4 bs1 with
      | none => (Except.error IOError.eof, g)
      | some (hb, bs2) =>
          let width := leToNat wb
          let height := leToNat hb
          if width ≠ g.width ∨ height ≠ g.height then
            (Except.error (IOError.invalidData (mismatchMsg width height g.width g.height)), g)
          else
            let (r, cells') := loadWords g.cells bs2
            (r, { g with cells := cells' })

/-! ### Patterns (patterns.rs) -/

/-- A pattern: named list of relative live-cell offsets. -/
structure Pattern where
  name : String
  description : String
  width : Nat
  height : Nat
  cells : List (Nat × Nat)

/-- `Pattern::place`: clear the bounding box, then set the offsets live;
out-of-bounds cells are skipped. -/
def Pattern.place (p : Pattern) (g : Grid) (x y : Nat) : Grid :=
  let cleared := (coordsList p.width p.height).foldl
    (fun g' d =>
      if x + d.1 < g'.dimensions.1 ∧ y + d.2 < g'.dimensions.2 then
        g'.set (x + d.1) (y + d.2) false
      else g') g
  p.cells.foldl
    (fun g' c =>
      if x + c.1 < g'.dimensions.1 ∧ y + c.2 < g'.dimensions.2 then
        g'.set (x + c.1) (y + c.2) true
      else g') cleared

/-- `PatternLibrary::glider`. -/
def PatternLibrary.glider : Pattern :=
  { name := "Glider"
    description := "The smallest, most common spaceship"
    width := 3
    height := 3
    cells := [(1, 0), (2, 1), (0, 2), (1, 2), (2, 2)] }

/-! ### Pattern analyzer (analyzer.rs)

`SpaceshipPattern`'s derived `speed` field (`sqrt(dx² + dy²) / period`, an
`f64`) is determined by `period` and `displacement` and is not modelled;
`ExplodingPattern`'s `f64` growth rate is modelled in `ℚ` (its only use is
the comparison with `0.1`). Wall-clock `analysis_duration` and the
report-only `stable_formations` map are omitted. Rust panics (out-of-range
slice/vector indexing) are modelled as `Except.error` with the panic
message. -/

/-- The life-cycle classification of a pattern (`PatternType`). -/
inductive PatternType where
  | ExtinctPattern (generations_to_extinction : Nat)
  | StablePattern (generations_to_stabilize : Nat) (oscillator_period : Option Nat)
      (final_population : Nat)
  | ExplodingPattern (average_growth_rate : ℚ)
  | SpaceshipPattern (period : Nat) (displacement : Int × Int)
  | PatternEmitter (period : Nat) (emitted_pattern_type : PatternType)
  | Unknown
deriving DecidableEq

/-- Statistics about a pattern's evolution (`PatternStats`). -/
structure PatternStats where
  name : String
  initial_population : Nat
  max_population : Nat
  generation_of_max : Nat
  final_population : Nat
  generations_analyzed : Nat
  pattern_type : PatternType
  population_history : List Nat
deriving DecidableEq

/-- `PatternStats::new`. -/
def PatternStats.init (name : String) (initial_population : Nat) : PatternStats :=
  { name := name
    initial_population := initial_population
    max_population := initial_population
    generation_of_max := 0
    final_population := initial_population
    generations_analyzed := 0
    pattern_type := PatternType.Unknown
    population_history := [initial_population] }

/-- `PatternAnalyzer` configuration. -/
structure PatternAnalyzer where
  max_generations : Nat
  grid_size : Nat × Nat
  boundary : BoundaryType

/-- Modelled from the spec: `hash_grid` feeds every cell's boolean (row
by row) into `std::collections::hash_map::DefaultHasher`, "a deterministic
function over every cell's boolean value, not a cryptographic hash"; the
hasher itself is standard-library code outside this repository. It is
modelled as the injective base-2 encoding of that boolean sequence. -/
def boolsHash (l : List Bool) : Nat :=
  l.foldl (fun acc b => 2 * acc + cond b 1 0) 1

/-- `PatternAnalyzer::hash_grid` over the analyzer's configured size. -/
def PatternAnalyzer.hash_grid (a : PatternAnalyzer) (g : Grid) : Nat :=
  boolsHash ((coordsList a.grid_size.1 a.grid_size.2).map fun p => g.get p.1 p.2)

/-- `PatternAnalyzer::find_pattern_center`: integer-average coordinates of
the live cells, or the grid's center when no cell is live. -/
def PatternAnalyzer.find_pattern_center (a : PatternAnalyzer) (g : Grid) : Nat × Nat :=
  let live := (coordsList a.grid_size.1 a.grid_size.2).filter fun p => g.get p.1 p.2
  if live.length = 0 then (a.grid_size.1 / 2, a.grid_size.2 / 2)
  else ((live.map Prod.fst).sum / live.length, (live.map Prod.snd).sum / live.length)

/-- Checked `Vec` indexing: a Rust index-out-of-bounds panic becomes an
`Except.error`. -/
def checkedGet (l : List (Nat × Nat)) (i : Nat) : Except String (Nat × Nat) :=
  match l.get? i with
  | some a => Except.ok a
  | none => Except.error "index out of bounds"

/-- `windows(2).all(|w| w[0] == w[1])`: adjacent elements pairwise equal. -/
def windowsAllEq {α : Type} [DecidableEq α] : List α → Bool
  | a :: b :: rest => a == b && windowsAllEq (b :: rest)
  | _ => true

/-- The displacement-collecting loop of `detect_spaceship` for one
candidate period: indexes `center_history[i * period]` and
`center_history[(i + 1) * period]` for each `i` (checked). -/
def collectDisplacements (ch : List (Nat × Nat)) (period : Nat) :
    List Nat → Except String (List (Int × Int))
  | [] => Except.ok []
  | i :: rest => do
      let pos1 ← checkedGet ch (i * period)
      let pos2 ← checkedGet ch ((i + 1) * period)
      let ds ← collectDisplacements ch period rest
      Except.ok (((pos2.1 : Int) - (pos1.1 : Int), (pos2.2 : Int) - (pos1.2 : Int)) :: ds)

/-- The candidate-period loop of `detect_spaceship` (periods tried in
increasing order). -/
def findSpaceshipPeriod (ch : List (Nat × Nat)) :
    List Nat → Except String (Option PatternType)
  | [] => Except.ok none
  | period :: rest =>
      if ch.length ≤ period * 2 then findSpaceshipPeriod ch rest
      else if ch.length / period < 2 then findSpaceshipPeriod ch rest
      else do
        let ds ← collectDisplacements ch period (List.range (ch.length / period))
        if windowsAllEq ds then
          Except.ok (some (PatternType.SpaceshipPattern period (ds.headD (0, 0))))
        else
          findSpaceshipPeriod ch rest

/-- `PatternAnalyzer::detect_spaceship`: requires ≥ 10 generations of
centroid history and a constant population over the last 10 recorded
populations, then tries periods 2..=10. -/
def PatternAnalyzer.detect_spaceship (_a : PatternAnalyzer)
    (center_history : List (Nat × Nat)) (population_history : List Nat) :
    Except String (Option PatternType) :=
  if center_history.length < 10 then Except.ok none
  else if population_history.length < 10 then Except.error "slice index out of range"
  else
    let recent := population_history.drop (population_history.length - 10)
    if !windowsAllEq recent then Except.ok none
    else findSpaceshipPeriod center_history (List.range' 2 9)

/-- The analyzer's per-generation loop state: the grid, the running stats,
the hash→generation history and the centroid history. -/
structure LoopState where
  grid : Grid
  stats : PatternStats
  gridHistory : List (Nat × Nat)
  centerHistory : List (Nat × Nat)

/-- `HashMap::get` on the hash→generation history. -/
def lookupHash (h : Nat) : List (Nat × Nat) → Option Nat
  | [] => none
  | e :: rest => if e.1 = h then some e.2 else lookupHash h rest

/-- One iteration's outcome: `stop` models `break`, `next` continues. -/
inductive StepOutcome where
  | stop (s : LoopState)
  | next (s : LoopState)

/-- One iteration of the `for generation in 1..=max_generations` loop of
`analyze_pattern`: advance the grid, update population stats and centroid
history, then check extinction, cycles, spaceships and explosion, in the
source's order. -/
def analyzeStep (a : PatternAnalyzer) (initial_population generation : Nat)
    (st : LoopState) : Except String StepOutcome :=
  let grid := st.grid.update
  let population := grid.count_alive
  let popHistory := st.stats.population_history ++ [population]
  let maxPop := if population > st.stats.max_population then population
    else st.stats.max_population
  let genOfMax := if population > st.stats.max_population then generation
    else st.stats.generation_of_max
  let centerHistory := st.centerHistory ++ [a.find_pattern_center grid]
  let stats := { st.stats with
    population_history := popHistory
    max_population := maxPop
    generation_of_max := genOfMax }
  if population = 0 then
    Except.ok (StepOutcome.stop
      { grid := grid
        stats := { stats with pattern_type := PatternType.ExtinctPattern generation }
        gridHistory := st.gridHistory
        centerHistory := centerHistory })
  else
    let hash := a.hash_grid grid
    match lookupHash hash st.gridHistory with
    | some previous_gen =>
        let period := generation - previous_gen
        let pt :=
          if period = 1 then
            PatternType.StablePattern (generation - 1) none population
          else
            PatternType.StablePattern previous_gen (some period) population
        Except.ok (StepOutcome.stop
          { grid := grid
            stats := { stats with pattern_type := pt }
            gridHistory := st.gridHistory
            centerHistory := centerHistory })
    | none =>
        let continueOutcome := StepOutcome.next
          { grid := grid
            stats := stats
            gridHistory := (hash, generation) :: st.gridHistory
            centerHistory := centerHistory }
        let explodingCheck : Except String StepOutcome :=
          if generation > 50 ∧ population > initial_population * 2 then
            let growth_rate : ℚ :=
              ((population : ℚ) - (initial_population : ℚ)) / (generation : ℚ)
            if growth_rate > 1 / 10 then
              Except.ok (StepOutcome.stop
                { grid := grid
                  stats := { stats with
                    pattern_type := PatternType.ExplodingPattern growth_rate }
                  gridHistory := st.gridHistory
                  centerHistory := centerHistory })
            else Except.ok continueOutcome
          else Except.ok continueOutcome
        if centerHistory.length > 10 then
          match a.detect_spaceship centerHistory popHistory with
          | Except.error e => Except.error e
          | Except.ok (some pt) =>
              Except.ok (StepOutcome.stop
                { grid := grid
                  stats := { stats with pattern_type := pt }
                  gridHistory := st.gridHistory
                  centerHistory := centerHistory })
          | Except.ok none => explodingCheck
        else explodingCheck

/-- The generation loop, driven by the remaining generation budget. -/
def analyzeLoop (a : PatternAnalyzer) (initial_population : Nat) :
    Nat → Nat → LoopState → Except String LoopState
  | 0, _, st => Except.ok st
  | fuel + 1, generation, st =>
      match analyzeStep a initial_population generation st with
      | Except.error e => Except.error e
      | Except.ok (StepOutcome.stop st') => Except.ok st'
      | Except.ok (StepOutcome.next st') => analyzeLoop a initial_population fuel (generation + 1) st'

/-- `PatternAnalyzer::analyze_pattern`: seed the grid, run the generation
loop, finalize `generations_analyzed` and `final_population`. -/
def PatternAnalyzer.analyze_pattern (a : PatternAnalyzer) (pattern : Pattern)
    (x y : Nat) : Except String PatternStats :=
  let grid0 := pattern.place (Grid.new a.grid_size.1 a.grid_size.2 a.boundary) x y
  let initial_population := grid0.count_alive
  let st0 : LoopState :=
    { grid := grid0
      stats := PatternStats.init pattern.name initial_population
      gridHistory := [(a.hash_grid grid0, 0)]
      centerHistory := [a.find_pattern_center grid0] }
  match analyzeLoop a initial_population a.max_generations 1 st0 with
  | Except.error e => Except.error e
  | Except.ok st =>
      Except.ok { st.stats with
        generations_analyzed := st.stats.population_history.length - 1
        final_population := st.stats.population_history.getLastD 0 }

/-- Projection used to state loop-step classification results: `some` of
the stats' classification when the step stops, `none` when it continues. -/
def stepClass : StepOutcome → Option PatternType
  | StepOutcome.stop st => some st.stats.pattern_type
  | StepOutcome.next _ => none

/-- The 2×2 block still life, for concrete runs. -/
def blockPattern : Pattern :=
  { name := "Block", description := "A 2x2 still life", width := 2, height := 2
    cells := [(0, 0), (1, 0), (0, 1), (1, 1)] }

/-- The empty pattern, for degenerate-seed runs. -/
def emptyPattern : Pattern :=
  { name := "Empty", description := "No cells", width := 0, height := 0, cells := [] }

/-- A small 4×4 Wrap analyzer, for concrete runs. -/
def smallAnalyzer : PatternAnalyzer :=
  { max_generations := 40, grid_size := (4, 4), boundary := BoundaryType.Wrap }

/-- The loop state of `analyze_pattern` just before generation 1 of the
block run. -/
def blockStart : LoopState :=
  { grid := blockPattern.place (Grid.new 4 4 BoundaryType.Wrap) 1 1
    stats := PatternStats.init "Block" 4
    gridHistory :=
      [(smallAnalyzer.hash_grid (blockPattern.place (Grid.new 4 4 BoundaryType.Wrap) 1 1), 0)]
    centerHistory :=
      [smallAnalyzer.find_pattern_center (blockPattern.place (Grid.new 4 4 BoundaryType.Wrap) 1 1)] }

/-! ### Fast packed mirror of the Wrap-boundary run

The whole grid is packed into one natural number with 64-bit row pitch
(single-word stride); the analyzer loop is mirrored over it and proven
equivalent, so concrete analyses can be evaluated on the packed form. -/

/-- Bit `i` of the packed grid, as 0 or 1. -/
def fbit (c i : Nat) : Nat := (c >>> i) &&& 1

/-- Packed-mirror Moore-neighbor count under Wrap, row pitch `S`. -/
def fwrapNeighbors (c S w h x y : Nat) : Nat :=
  let xm := (x + w - 1) % w
  let xp := (x + 1) % w
  let rym := S * ((y + h - 1) % h)
  let ry := S * y
  let ryp := S * ((y + 1) % h)
  fbit c (rym + xm) + fbit c (rym + x) + fbit c (rym + xp) +
    fbit c (ry + xm) + fbit c (ry + xp) +
    fbit c (ryp + xm) + fbit c (ryp + x) + fbit c (ryp + xp)

/-- The transition rule on 0/1-valued cells. -/
def lifeRuleFast (alive n : Nat) : Bool :=
  cond (alive.beq 1) (n.beq 2 || n.beq 3) (n.beq 3)

/-- Packed-mirror `Grid::update` under Wrap. -/
def fwrapUpdate (c S w h : Nat) : Nat :=
  (List.range h).foldl
    (fun acc y =>
      (List.range w).foldl
        (fun acc x =>
          cond (lifeRuleFast (fbit c (S * y + x)) (fwrapNeighbors c S w h x y))
            (acc ||| (1 <<< (S * y + x))) acc) acc) 0

/-- Packed-mirror `hash_grid`. -/
def fhash (c S w h : Nat) : Nat :=
  (List.range h).foldl
    (fun acc y => (List.range w).foldl (fun acc x => 2 * acc + fbit c (S * y + x)) acc) 1

/-- Packed-mirror live-cell coordinate sums and count. -/
def fcenterAux (c S w h : Nat) : Nat × Nat × Nat :=
  (List.range h).foldl
    (fun acc y =>
      (List.range w).foldl
        (fun acc x =>
          cond ((fbit c (S * y + x)).beq 1) (acc.1 + x, acc.2.1 + y, acc.2.2 + 1) acc)
        acc)
    (0, 0, 0)

/-- Packed-mirror `find_pattern_center`. -/
def fcenter (c S w h : Nat) : Nat × Nat :=
  let t := fcenterAux c S w h
  if t.2.2 = 0 then (w / 2, h / 2) else (t.1 / t.2.2, t.2.1 / t.2.2)

/-- Packed-mirror `count_alive` over `len` 64-bit words. -/
def fpop (c len : Nat) : Nat :=
  (List.range len).foldl
    (fun acc i => acc + count_ones64 ((c >>> (64 * i)) &&& (2 ^ 64 - 1))) 0

/-- Packing a 64-bit word array into one natural number, word 0 lowest. -/
def packCells : List Nat → Nat
  | [] => 0
  | w :: rest => w + (packCells rest <<< 64)

/-- The packed form of a grid. -/
def Grid.pack (g : Grid) : Nat := packCells g.cells

/-- The loop state of the packed mirror. -/
structure FastState where
  c : Nat
  stats : PatternStats
  gridHistory : List (Nat × Nat)
  centerHistory : List (Nat × Nat)

/-- Packed-mirror step outcome. -/
inductive FastOutcome where
  | stop (s : FastState)
  | next (s : FastState)

/-- The packed mirror of `analyzeStep`. -/
def fastStep (a : PatternAnalyzer) (initial_population generation : Nat)
    (st : FastState) : Except String FastOutcome :=
  let c := fwrapUpdate st.c 64 a.grid_size.1 a.grid_size.2
  let population := fpop c a.grid_size.2
  let popHistory := st.stats.population_history ++ [population]
  let maxPop := if population > st.stats.max_population then population
    else st.stats.max_population
  let genOfMax := if population > st.stats.max_population then generation
    else st.stats.generation_of_max
  let centerHistory := st.centerHistory ++ [fcenter c 64 a.grid_size.1 a.grid_size.2]
  let stats := { st.stats with
    population_history := popHistory
    max_population := maxPop
    generation_of_max := genOfMax }
  if population = 0 then
    Except.ok (FastOutcome.stop
      { c := c
        stats := { stats with pattern_type := PatternType.ExtinctPattern generation }
        gridHistory := st.gridHistory
        centerHistory := centerHistory })
  else
    let hash := fhash c 64 a.grid_size.1 a.grid_size.2
    match lookupHash hash st.gridHistory with
    | some previous_gen =>
        let period := generation - previous_gen
        let pt :=
          if period = 1 then
            PatternType.StablePattern (generation - 1) none population
          else
            PatternType.StablePattern previous_gen (some period) population
        Except.ok (FastOutcome.stop
          { c := c
            stats := { stats with pattern_type := pt }
            gridHistory := st.gridHistory
            centerHistory := centerHistory })
    | none =>
        let continueOutcome := FastOutcome.next
          { c := c
            stats := stats
            gridHistory := (hash, generation) :: st.gridHistory
            centerHistory := centerHistory }
        let explodingCheck : Except String FastOutcome :=
          if generation > 50 ∧ population > initial_population * 2 then
            let growth_rate : ℚ :=
              ((population : ℚ) - (initial_population : ℚ)) / (generation : ℚ)
            if growth_rate > 1 / 10 then
              Except.ok (FastOutcome.stop
                { c := c
                  stats := { stats with
                    pattern_type := PatternType.ExplodingPattern growth_rate }
                  gridHistory := st.gridHistory
                  centerHistory := centerHistory })
            else Except.ok continueOutcome
          else Except.ok continueOutcome
        if centerHistory.length > 10 then
          match a.detect_spaceship centerHistory popHistory with
          | Except.error e => Except.error e
          | Except.ok (some pt) =>
              Except.ok (FastOutcome.stop
                { c := c
                  stats := { stats with pattern_type := pt }
                  gridHistory := st.gridHistory
                  centerHistory := centerHistory })
          | Except.ok none => explodingCheck
        else explodingCheck

/-- The packed mirror of `analyzeLoop`. -/
def fastLoop (a : PatternAnalyzer) (initial_population : Nat) :
    Nat → Nat → FastState → Except String FastState
  | 0, _, st => Except.ok st
  | fuel + 1, generation, st =>
      match fastStep a initial_population generation st with
      | Except.error e => Except.error e
      | Except.ok (FastOutcome.stop st') => Except.ok st'
      | Except.ok (FastOutcome.next st') =>
          fastLoop a initial_population fuel (generation + 1) st'

/-- The invariants a Wrap-boundary single-word-stride analysis grid keeps
through the loop. -/
def GoodGrid (a : PatternAnalyzer) (g : Grid) : Prop :=
  g.WF ∧ g.PadClear ∧ g.stride = 1 ∧ g.boundary = BoundaryType.Wrap ∧
    g.width = a.grid_size.1 ∧ g.height = a.grid_size.2 ∧
    0 < g.width ∧ g.width ≤ 64 ∧ 0 < g.height

instance (a : PatternAnalyzer) (g : Grid) : Decidable (GoodGrid a g) := by
  unfold GoodGrid; infer_instance

/-- The error of an analysis result, if any. -/
def errOf : Except String PatternStats → Option String
  | Except.error e => some e
  | Except.ok _ => none

/-- The classification of a successful analysis result, if any. -/
def okPT : Except String PatternStats → Option PatternType
  | Except.error _ => none
  | Except.ok stats => some stats.pattern_type

/-- The classification reached by the packed loop, if any. -/
def fastPT : Except String FastState → Option PatternType
  | Except.error _ => none
  | Except.ok s => some s.stats.pattern_type

/-- The 40-generation 50×50 Wrap analyzer of the glider acceptance run. -/
def gliderAnalyzer : PatternAnalyzer :=
  { max_generations := 40, grid_size := (50, 50), boundary := BoundaryType.Wrap }

/-- The glider run's seeded grid: the glider placed at (20, 20) on the
50×50 Wrap grid. -/
def gliderGrid0 : Grid :=
  PatternLibrary.glider.place
    (Grid.new gliderAnalyzer.grid_size.1 gliderAnalyzer.grid_size.2
      gliderAnalyzer.boundary) 20 20

/-- A glider beside a block: constant population 9 with centroid jitter,
driving `detect_spaceship` to index `center_history[12]` of a 12-element
history at generation 11. -/
def panicPattern : Pattern :=
  { name := "GliderPlusBlock", description := "A glider beside a block"
    width := 13, height := 9
    cells := [(5, 4), (6, 5), (4, 6), (5, 6), (6, 6), (10, 0), (11, 0), (10, 1), (11, 1)] }

/-- The 40-generation 16×16 Wrap analyzer of the panic run. -/
def panicAnalyzer : PatternAnalyzer :=
  { max_generations := 40, grid_size := (16, 16), boundary := BoundaryType.Wrap }

/-- The error reached by the packed loop, if any. -/
def fastErr : Except String FastState → Option String
  | Except.error e => some e
  | Except.ok _ => none

/-- The panic run's seeded grid: `panicPattern` placed at (0, 0) on the
16×16 Wrap grid. -/
def panicGrid0 : Grid :=
  panicPattern.place
    (Grid.new panicAnalyzer.grid_size.1 panicAnalyzer.grid_size.2
      panicAnalyzer.boundary) 0 0

/-! ## Bit-level machinery for the packed representation -/

theorem list_any_map {α β : Type} (f : α → β) (l : List α) (p : β → Bool) :
    (l.map f).any p = l.any fun a => p (f a) := by
  induction l with
  | nil => rfl
  | cons a l ih => simp [ih]

theorem and_one_shiftLeft_bne (n b : Nat) :
    ((n &&& (1 <<< b)) != 0) = n.testBit b := by
  rw [Nat.one_shiftLeft, Nat.and_two_pow]
  have h2 : 0 < 2 ^ b := Nat.two_pow_pos b
  cases h : n.testBit b
  · simp
  · simp only [Bool.toNat_true, Nat.one_mul, bne_iff_ne, ne_eq]
    omega

theorem Grid.stride_pos (g : Grid) (hwf : g.WF) (hw : 0 < g.width) : 0 < g.stride := by
  rw [hwf.1]; omega

theorem Grid.width_le_stride_mul (g : Grid) (hwf : g.WF) : g.width ≤ g.stride * 64 := by
  rw [hwf.1]; omega

theorem Grid.chunk_lt (g : Grid) (hwf : g.WF) {x y : Nat}
    (hx : x < g.width) (hy : y < g.height) :
    y * g.stride + x / 64 < g.cells.length := by
  have hxs : x / 64 < g.stride := by rw [hwf.1]; omega
  rw [hwf.2.1]
  calc y * g.stride + x / 64 < (y + 1) * g.stride := by
        rw [Nat.add_mul, Nat.one_mul]; omega
    _ ≤ g.height * g.stride := Nat.mul_le_mul_right _ (by omega)
    _ = g.stride * g.height := Nat.mul_comm _ _

theorem Grid.get_eq_testBit (g : Grid) {x y : Nat} (hx : x < g.width) (hy : y < g.height)
    (hci : y * g.stride + x / 64 < g.cells.length) :
    g.get x y = (g.cells.getD (y * g.stride + x / 64) 0).testBit (x % 64) := by
  unfold Grid.get
  rw [if_neg (by omega), if_neg (by omega)]
  exact and_one_shiftLeft_bne _ _

theorem getD_set_self {cs : List Nat} {i : Nat} {v : Nat} (h : i < cs.length) :
    (cs.set i v).getD i 0 = v := by
  simp [List.getD_eq_getElem?_getD, List.getElem?_set_self h]

theorem getD_set_ne {cs : List Nat} {i j : Nat} {v : Nat} (h : i ≠ j) :
    (cs.set i v).getD j 0 = cs.getD j 0 := by
  simp [List.getD_eq_getElem?_getD, List.getElem?_set_ne h]

theorem applyUpdates_length (ups : List (Nat × Nat)) (cs : List Nat) :
    (applyUpdates ups cs).length = cs.length := by
  induction ups generalizing cs with
  | nil => rfl
  | cons u ups ih =>
      show (applyUpdates ups _).length = _
      rw [ih, List.length_set]

theorem applyUpdates_getD_testBit (ups : List (Nat × Nat)) (cs : List Nat)
    (ci bi : Nat) (hci : ci < cs.length) :
    ((applyUpdates ups cs).getD ci 0).testBit bi
      = ((cs.getD ci 0).testBit bi || ups.any fun u => u.1 == ci && u.2.testBit bi) := by
  induction ups generalizing cs with
  | nil => simp [applyUpdates]
  | cons u ups ih =>
      show ((applyUpdates ups _).getD ci 0).testBit bi = _
      rw [ih _ (by rw [List.length_set]; exact hci)]
      by_cases h : u.1 = ci
      · subst h
        rw [getD_set_self hci, Nat.testBit_or]
        simp [Bool.or_assoc]
      · rw [getD_set_ne h]
        have hbeq : (u.1 == ci) = false := by
          simp [h]
        simp [List.any_cons, hbeq]

theorem foldlApply_length (rows : List (List (Nat × Nat))) (cs : List Nat) :
    (rows.foldl (fun cs row => applyUpdates row cs) cs).length = cs.length := by
  induction rows generalizing cs with
  | nil => rfl
  | cons r rows ih =>
      show (rows.foldl _ (applyUpdates r cs)).length = _
      rw [ih, applyUpdates_length]

theorem foldlApply_getD_testBit (rows : List (List (Nat × Nat))) (cs : List Nat)
    (ci bi : Nat) (hci : ci < cs.length) :
    ((rows.foldl (fun cs row => applyUpdates row cs) cs).getD ci 0).testBit bi
      = ((cs.getD ci 0).testBit bi
          || rows.any fun row => row.any fun u => u.1 == ci && u.2.testBit bi) := by
  induction rows generalizing cs with
  | nil => simp
  | cons r rows ih =>
      show ((rows.foldl _ (applyUpdates r cs)).getD ci 0).testBit bi = _
      rw [ih _ (by rw [applyUpdates_length]; exact hci),
        applyUpdates_getD_testBit _ _ _ _ hci]
      simp [Bool.or_assoc]

theorem Grid.update_cells_eq (g : Grid) :
    g.update.cells = ((List.range g.height).map g.rowUpdates).foldl
      (fun cs row => applyUpdates row cs) (List.replicate g.cells.length 0) := rfl

theorem Grid.update_cells_length (g : Grid) : g.update.cells.length = g.cells.length := by
  rw [g.update_cells_eq, foldlApply_length, List.length_replicate]

theorem Grid.update_getD_testBit (g : Grid) (ci bi : Nat) (hci : ci < g.cells.length) :
    (g.update.cells.getD ci 0).testBit bi
      = (List.range g.height).any fun y =>
          (g.rowUpdates y).any fun u => u.1 == ci && u.2.testBit bi := by
  rw [g.update_cells_eq,
    foldlApply_getD_testBit _ _ _ _ (by rw [List.length_replicate]; exact hci)]
  simp only [List.getD_eq_getElem?_getD, List.getElem?_replicate, hci, if_true,
    Option.getD_some, Nat.zero_testBit, Bool.false_or]
  rw [list_any_map]

theorem Grid.rowUpdates_any_iff (g : Grid) (y ci bi : Nat) :
    ((g.rowUpdates y).any fun u => u.1 == ci && u.2.testBit bi) = true
      ↔ ∃ x, x < g.width ∧ g.willBeAlive x y = true ∧
          y * g.stride + x / 64 = ci ∧ x % 64 = bi := by
  unfold Grid.rowUpdates
  rw [List.any_eq_true]
  constructor
  · rintro ⟨u, hu, hp⟩
    obtain ⟨x, hxf, rfl⟩ := List.mem_map.mp hu
    obtain ⟨hxr, hwba⟩ := List.mem_filter.mp hxf
    simp only [Bool.and_eq_true, beq_iff_eq] at hp
    refine ⟨x, List.mem_range.mp hxr, hwba, hp.1, ?_⟩
    have := hp.2
    rwa [Nat.one_shiftLeft, Nat.testBit_two_pow, decide_eq_true_eq] at this
  · rintro ⟨x, hx, hwba, hchunk, hbit⟩
    refine ⟨(y * g.stride + x / 64, 1 <<< (x % 64)), List.mem_map.mpr
      ⟨x, List.mem_filter.mpr ⟨List.mem_range.mpr hx, hwba⟩, rfl⟩, ?_⟩
    simp only [Bool.and_eq_true, beq_iff_eq]
    refine ⟨hchunk, ?_⟩
    rw [Nat.one_shiftLeft, Nat.testBit_two_pow, decide_eq_true_eq]
    exact hbit

theorem cell_index_inj {stride w : Nat} (hw : w ≤ stride * 64)
    {x y x' y' : Nat} (hx : x < w) (hx' : x' < w)
    (hci : y' * stride + x' / 64 = y * stride + x / 64) (hbi : x' % 64 = x % 64) :
    x' = x ∧ y' = y := by
  have hs : 0 < stride := by
    rcases Nat.eq_zero_or_pos stride with h | h
    · subst h; omega
    · exact h
  have h1 : x / 64 < stride := by
    by_contra hcon
    have : stride * 64 ≤ x := by
      calc stride * 64 ≤ x / 64 * 64 := Nat.mul_le_mul_right _ (by omega)
        _ ≤ x := Nat.div_mul_le_self _ _
    omega
  have h1' : x' / 64 < stride := by
    by_contra hcon
    have : stride * 64 ≤ x' := by
      calc stride * 64 ≤ x' / 64 * 64 := Nat.mul_le_mul_right _ (by omega)
        _ ≤ x' := Nat.div_mul_le_self _ _
    omega
  have hy : y' = y := by
    have e1 : (y' * stride + x' / 64) / stride = y' := by
      rw [Nat.mul_comm y' stride, Nat.mul_add_div hs, Nat.div_eq_of_lt h1']
      omega
    have e2 : (y * stride + x / 64) / stride = y := by
      rw [Nat.mul_comm y stride, Nat.mul_add_div hs, Nat.div_eq_of_lt h1]
      omega
    rw [← e1, ← e2, hci]
  subst hy
  have hxx : x' / 64 = x / 64 := by omega
  have d1 := Nat.div_add_mod x 64
  have d2 := Nat.div_add_mod x' 64
  omega

theorem Grid.update_get (g : Grid) (hwf : g.WF) {x y : Nat}
    (hx : x < g.width) (hy : y < g.height) :
    g.update.get x y = g.willBeAlive x y := by
  have hci := g.chunk_lt hwf hx hy
  have hciu : y * g.stride + x / 64 < g.update.cells.length := by
    rw [g.update_cells_length]; exact hci
  have hget : g.update.get x y
      = (g.update.cells.getD (y * g.stride + x / 64) 0).testBit (x % 64) :=
    Grid.get_eq_testBit g.update (x := x) (y := y) hx hy hciu
  rw [hget, g.update_getD_testBit _ _ hci]
  have hwle : g.width ≤ g.stride * 64 := by rw [hwf.1]; omega
  refine Bool.eq_iff_iff.mpr ?_
  rw [List.any_eq_true]
  constructor
  · rintro ⟨y', hy', hrow⟩
    obtain ⟨x', hx', halive, hchunk, hbit⟩ := (g.rowUpdates_any_iff _ _ _).mp hrow
    obtain ⟨hxe, hye⟩ := cell_index_inj hwle hx hx' hchunk hbit
    subst hxe
    subst hye
    exact halive
  · intro hwba
    exact ⟨y, List.mem_range.mpr hy, (g.rowUpdates_any_iff _ _ _).mpr
      ⟨x, hx, hwba, rfl, rfl⟩⟩

theorem lifeRule_eq_true (a : Bool) (n : Nat) :
    lifeRule a n = true ↔ (a = true ∧ (n = 2 ∨ n = 3)) ∨ (a = false ∧ n = 3) := by
  cases a <;> rcases n with _ | _ | _ | _ | n <;> simp [lifeRule]

/-! ## C7: out-of-range access -/

/-- C7: for every coordinate with `x ≥ width` or `y ≥ height`, `get`
returns false without error, and `set` and `toggle` return the grid
unchanged (silent no-op). -/
theorem grid_out_of_range_tolerant (g : Grid) (x y : Nat)
    (h : g.width ≤ x ∨ g.height ≤ y) :
    g.get x y = false ∧ (∀ state, g.set x y state = g) ∧ g.toggle x y = g := by
  refine ⟨?_, ?_, ?_⟩
  · simp [Grid.get, h]
  · intro state; simp [Grid.set, h]
  · simp [Grid.toggle, h]

/-- Witness for C7 at a concrete grid and out-of-range coordinate. -/
theorem grid_out_of_range_tolerant_witness :
    ((Grid.new 10 10 BoundaryType.Wrap).width ≤ 10 ∨
      (Grid.new 10 10 BoundaryType.Wrap).height ≤ 3) ∧
    (Grid.new 10 10 BoundaryType.Wrap).get 10 3 = false := by
  have h := grid_out_of_range_tolerant (Grid.new 10 10 BoundaryType.Wrap) 10 3
    (Or.inl (by decide))
  exact ⟨Or.inl (by decide), h.1⟩

/-! ## C1: the update rule -/

/-- C1: after one `update()`, an in-range cell is live iff in the
pre-update state it was live with exactly 2 or 3 live neighbors, or dead
with exactly 3 live neighbors. The right-hand side reads only the
pre-update grid `g`: the successor is built in separate storage
(`update`'s fresh zeroed array) and then replaces the current state. -/
theorem grid_update_conway_rule (g : Grid) (hwf : g.WF) (x y : Nat)
    (hx : x < g.width) (hy : y < g.height) :
    g.update.get x y = true
      ↔ ((g.get x y = true ∧ (g.count_neighbors x y = 2 ∨ g.count_neighbors x y = 3))
          ∨ (g.get x y = false ∧ g.count_neighbors x y = 3)) := by
  rw [Grid.update_get g hwf hx hy]
  exact lifeRule_eq_true _ _

/-- Witness for C1: a horizontal blinker on a 5×5 grid; the dead cell
`(2, 1)` has exactly 3 live neighbors and comes alive. -/
theorem grid_update_conway_rule_witness :
    (((Grid.new 5 5 BoundaryType.Wrap).set 1 2 true).set 2 2 true |>.set 3 2 true).WF ∧
    ((((Grid.new 5 5 BoundaryType.Wrap).set 1 2 true).set 2 2 true |>.set 3 2 true).update.get 2 1 = true
      ↔ (((((Grid.new 5 5 BoundaryType.Wrap).set 1 2 true).set 2 2 true |>.set 3 2 true).get 2 1 = true
            ∧ ((((Grid.new 5 5 BoundaryType.Wrap).set 1 2 true).set 2 2 true |>.set 3 2 true).count_neighbors 2 1 = 2
                ∨ (((Grid.new 5 5 BoundaryType.Wrap).set 1 2 true).set 2 2 true |>.set 3 2 true).count_neighbors 2 1 = 3))
          ∨ ((((Grid.new 5 5 BoundaryType.Wrap).set 1 2 true).set 2 2 true |>.set 3 2 true).get 2 1 = false
              ∧ (((Grid.new 5 5 BoundaryType.Wrap).set 1 2 true).set 2 2 true |>.set 3 2 true).count_neighbors 2 1 = 3))) :=
  ⟨by decide, grid_update_conway_rule _ (by decide) 2 1 (by decide) (by decide)⟩

/-! ## C2: neighbor counting under the two boundary policies -/

theorem Grid.contrib_le_one (g : Grid) (x y : Nat) (d : Int × Int) :
    g.neighborContrib x y d ≤ 1 := by
  unfold Grid.neighborContrib
  split
  · split <;> omega
  · split
    · omega
    · split
      · omega
      · split <;> omega

theorem Grid.fixed_contrib_eq_zero (g : Grid) (x y : Nat) (d1 d2 : Int)
    (hb : g.boundary = BoundaryType.Fixed)
    (h : (x : Int) + d1 < 0 ∨ (g.width : Int) ≤ (x : Int) + d1 ∨
      (y : Int) + d2 < 0 ∨ (g.height : Int) ≤ (y : Int) + d2) :
    g.neighborContrib x y (d1, d2) = 0 := by
  have hc : g.neighborContrib x y (d1, d2)
      = (if (x : Int) + d1 < 0 ∨ (g.width : Int) ≤ (x : Int) + d1 then 0
         else if (y : Int) + d2 < 0 ∨ (g.height : Int) ≤ (y : Int) + d2 then 0
         else if g.get ((x : Int) + d1).toNat ((y : Int) + d2).toNat then 1 else 0) := by
    unfold Grid.neighborContrib
    rw [hb]
  rw [hc]
  by_cases hx : (x : Int) + d1 < 0 ∨ (g.width : Int) ≤ (x : Int) + d1
  · rw [if_pos hx]
  · rw [if_neg hx, if_pos (by omega)]

theorem Grid.wrap_contrib_left (g : Grid) (hb : g.boundary = BoundaryType.Wrap)
    (hw : 1 ≤ g.width) (hh : 1 ≤ g.height)
    (hget : g.get (g.width - 1) 0 = true) :
    g.neighborContrib 0 0 (-1, 0) = 1 := by
  unfold Grid.neighborContrib
  rw [hb]
  have hnx : (((0 : Nat) : Int) + (-1 : Int)).emod (g.width : Int) = (g.width : Int) - 1 := by
    show (((0 : Nat) : Int) + (-1 : Int)) % (g.width : Int) = (g.width : Int) - 1
    have h1 : ((0 : Nat) : Int) + (-1 : Int) = ((g.width : Int) - 1) + (g.width : Int) * (-1) := by
      ring
    rw [h1, Int.add_mul_emod_self_left]
    exact Int.emod_eq_of_lt (by omega) (by omega)
  have hny : (((0 : Nat) : Int) + (0 : Int)).emod (g.height : Int) = 0 := by
    show (((0 : Nat) : Int) + (0 : Int)) % (g.height : Int) = 0
    rw [Int.add_zero]
    simp
  simp only [hnx, hny]
  have htn : ((g.width : Int) - 1).toNat = g.width - 1 := by omega
  have htz : ((0 : Int)).toNat = 0 := rfl
  rw [htn, htz, hget]
  rfl

/-- C2: `count_neighbors` examines the 8 Moore offsets. Under `Wrap`, a
live cell at `(width-1, 0)` is counted as a neighbor of `(0, 0)` (every
offset is reduced modulo the dimensions, so all 8 offsets contribute).
Under `Fixed`, out-of-range offsets are skipped entirely, so a corner
cell's neighbor count is at most 3. -/
theorem count_neighbors_boundary_policy :
    neighborOffsets.length = 8 ∧
    (∀ g : Grid, g.boundary = BoundaryType.Wrap → 2 ≤ g.width → 1 ≤ g.height →
      g.get (g.width - 1) 0 = true → 1 ≤ g.count_neighbors 0 0) ∧
    (∀ g : Grid, g.boundary = BoundaryType.Fixed →
      ∀ cx cy : Nat, (cx = 0 ∨ cx = g.width - 1) → (cy = 0 ∨ cy = g.height - 1) →
        g.count_neighbors cx cy ≤ 3) := by
  have hexp : ∀ (g : Grid) (cx cy : Nat), g.count_neighbors cx cy
      = g.neighborContrib cx cy (-1, -1) + (g.neighborContrib cx cy (0, -1) +
        (g.neighborContrib cx cy (1, -1) + (g.neighborContrib cx cy (-1, 0) +
        (g.neighborContrib cx cy (1, 0) + (g.neighborContrib cx cy (-1, 1) +
        (g.neighborContrib cx cy (0, 1) + (g.neighborContrib cx cy (1, 1) + 0))))))) := by
    intro g cx cy
    rfl
  refine ⟨rfl, ?_, ?_⟩
  · intro g hb hw hh hget
    have h4 : g.neighborContrib 0 0 (-1, 0) = 1 :=
      g.wrap_contrib_left hb (by omega) hh hget
    rw [hexp, h4]
    omega
  · intro g hb cx cy hcx hcy
    have hle : ∀ d, g.neighborContrib cx cy d ≤ 1 := fun d => g.contrib_le_one cx cy d
    have z1 : ∀ d1 d2 : Int, ((cx : Int) + d1 < 0 ∨ (g.width : Int) ≤ (cx : Int) + d1) →
        g.neighborContrib cx cy (d1, d2) = 0 := fun d1 d2 hd =>
      g.fixed_contrib_eq_zero cx cy d1 d2 hb (by omega)
    have z2 : ∀ d1 d2 : Int, ((cy : Int) + d2 < 0 ∨ (g.height : Int) ≤ (cy : Int) + d2) →
        g.neighborContrib cx cy (d1, d2) = 0 := fun d1 d2 hd =>
      g.fixed_contrib_eq_zero cx cy d1 d2 hb (by omega)
    rw [hexp]
    rcases hcx with hcx | hcx <;> rcases hcy with hcy | hcy <;> subst hcx <;> subst hcy
    · have e1 := z1 (-1) (-1) (by omega)
      have e2 := z2 0 (-1) (by omega)
      have e3 := z2 1 (-1) (by omega)
      have e4 := z1 (-1) 0 (by omega)
      have e5 := z1 (-1) 1 (by omega)
      have o1 := hle (1, 0)
      have o2 := hle (0, 1)
      have o3 := hle (1, 1)
      omega
    · have e1 := z1 (-1) (-1) (by omega)
      have e2 := z1 (-1) 0 (by omega)
      have e3 := z1 (-1) 1 (by omega)
      have e4 := z2 0 1 (by omega)
      have e5 := z2 1 1 (by omega)
      have o1 := hle (0, -1)
      have o2 := hle (1, -1)
      have o3 := hle (1, 0)
      omega
    · have e1 := z2 (-1) (-1) (by omega)
      have e2 := z2 0 (-1) (by omega)
      have e3 := z2 1 (-1) (by omega)
      have e4 := z1 1 0 (by omega)
      have e5 := z1 1 1 (by omega)
      have o1 := hle (-1, 0)
      have o2 := hle (-1, 1)
      have o3 := hle (0, 1)
      omega
    · have e1 := z2 0 1 (by omega)
      have e2 := z2 1 1 (by omega)
      have e3 := z2 (-1) 1 (by omega)
      have e4 := z1 1 0 (by omega)
      have e5 := z1 1 (-1) (by omega)
      have o1 := hle (-1, -1)
      have o2 := hle (0, -1)
      have o3 := hle (-1, 0)
      omega

/-- Witness for C2: a 4×3 Wrap grid with `(3, 0)` live wraps it into
`(0, 0)`'s neighborhood; a 4×3 Fixed corner counts at most 3. -/
theorem count_neighbors_boundary_policy_witness :
    1 ≤ ((Grid.new 4 3 BoundaryType.Wrap).set 3 0 true).count_neighbors 0 0 ∧
    (Grid.new 4 3 BoundaryType.Fixed).count_neighbors 0 0 ≤ 3 :=
  ⟨count_neighbors_boundary_policy.2.1 _ (by decide) (by decide) (by decide) (by decide),
    count_neighbors_boundary_policy.2.2 _ (by decide) 0 0 (Or.inl rfl) (Or.inl rfl)⟩

/-! ## C10: padding invariant and population counting -/

theorem forall_mem_iff_getD (cs : List Nat) (P : Nat → Prop) :
    (∀ c ∈ cs, P c) ↔ (∀ i, i < cs.length → P (cs.getD i 0)) := by
  constructor
  · intro h i hi
    apply h
    rw [List.getD_eq_getElem?_getD, List.getElem?_eq_getElem hi, Option.getD_some]
    exact List.getElem_mem hi
  · intro h c hc
    obtain ⟨i, hi, rfl⟩ := List.mem_iff_getElem.mp hc
    have hv := h i hi
    rwa [List.getD_eq_getElem?_getD, List.getElem?_eq_getElem hi, Option.getD_some] at hv

theorem getD_replicate_zero (n i : Nat) : (List.replicate n (0 : Nat)).getD i 0 = 0 := by
  induction n generalizing i with
  | zero => rfl
  | succ n ih =>
      cases i with
      | zero => rfl
      | succ i => exact ih i

theorem getD_map_const_zero (cs : List Nat) (i : Nat) :
    (cs.map fun _ => (0 : Nat)).getD i 0 = 0 := by
  induction cs generalizing i with
  | nil => rfl
  | cons c cs ih =>
      cases i with
      | zero => rfl
      | succ i => exact ih i

theorem Grid.inv_new (w h : Nat) (b : BoundaryType) :
    (Grid.new w h b).WF ∧ (Grid.new w h b).PadClear := by
  refine ⟨⟨rfl, by simp [Grid.new], ?_⟩, ?_⟩
  · intro c hc
    rw [List.eq_of_mem_replicate hc]
    exact Nat.two_pow_pos 64
  · intro i hi bb hbb hcol
    show ((List.replicate ((w + 63) / 64 * h) 0).getD i 0).testBit bb = false
    rw [getD_replicate_zero]
    exact Nat.zero_testBit bb

theorem shiftLeft_mod64_lt (x : Nat) : 1 <<< (x % 64) < 2 ^ 64 := by
  rw [Nat.one_shiftLeft]
  exact Nat.pow_lt_pow_right (by omega) (Nat.mod_lt _ (by omega))

theorem Grid.chunk_mod_stride (g : Grid) (hwf : g.WF) {x y : Nat}
    (hx : x < g.width) :
    (y * g.stride + x / 64) % g.stride = x / 64 := by
  have hxs : x / 64 < g.stride := by rw [hwf.1]; omega
  rw [Nat.add_comm, Nat.add_mul_mod_self_right, Nat.mod_eq_of_lt hxs]

theorem Grid.set_true_cases (g : Grid) (x y : Nat) :
    g.set x y true = g ∨
    (x < g.width ∧ y < g.height ∧ y * g.stride + x / 64 < g.cells.length ∧
      g.set x y true = { g with cells := (g.cells.set (y * g.stride + x / 64)
        (g.cells.getD (y * g.stride + x / 64) 0 ||| (1 <<< (x % 64)))) }) := by
  unfold Grid.set
  by_cases h1 : g.width ≤ x ∨ g.height ≤ y
  · left
    rw [if_pos h1]
  · rw [if_neg h1]
    by_cases h2 : g.cells.length ≤ y * g.stride + x / 64
    · left
      rw [if_pos h2]
    · right
      refine ⟨by omega, by omega, by omega, ?_⟩
      rw [if_neg h2]
      rfl

theorem Grid.set_false_cases (g : Grid) (x y : Nat) :
    g.set x y false = g ∨
    (x < g.width ∧ y < g.height ∧ y * g.stride + x / 64 < g.cells.length ∧
      g.set x y false = { g with cells := (g.cells.set (y * g.stride + x / 64)
        (g.cells.getD (y * g.stride + x / 64) 0 &&&
          ((2 ^ 64 - 1) ^^^ (1 <<< (x % 64))))) }) := by
  unfold Grid.set
  by_cases h1 : g.width ≤ x ∨ g.height ≤ y
  · left
    rw [if_pos h1]
  · rw [if_neg h1]
    by_cases h2 : g.cells.length ≤ y * g.stride + x / 64
    · left
      rw [if_pos h2]
    · right
      refine ⟨by omega, by omega, by omega, ?_⟩
      rw [if_neg h2]
      rfl

theorem Grid.toggle_cases (g : Grid) (x y : Nat) :
    g.toggle x y = g ∨
    (x < g.width ∧ y < g.height ∧ y * g.stride + x / 64 < g.cells.length ∧
      g.toggle x y = { g with cells := (g.cells.set (y * g.stride + x / 64)
        (g.cells.getD (y * g.stride + x / 64) 0 ^^^ (1 <<< (x % 64)))) }) := by
  unfold Grid.toggle
  by_cases h1 : g.width ≤ x ∨ g.height ≤ y
  · left
    rw [if_pos h1]
  · rw [if_neg h1]
    by_cases h2 : g.cells.length ≤ y * g.stride + x / 64
    · left
      rw [if_pos h2]
    · right
      exact ⟨by omega, by omega, by omega, by rw [if_neg h2]⟩

theorem Grid.wf_getD_lt (g : Grid) (hwf : g.WF) (i : Nat) : g.cells.getD i 0 < 2 ^ 64 := by
  by_cases h : i < g.cells.length
  · exact (forall_mem_iff_getD g.cells (· < 2 ^ 64)).mp hwf.2.2 i h
  · rw [List.getD_eq_getElem?_getD, List.getElem?_eq_none (by omega), Option.getD_none]
    exact Nat.two_pow_pos 64

theorem Grid.padbit_aux (g : Grid) {x b : Nat} (hx : x < g.width)
    (hcol : g.width ≤ x / 64 * 64 + b) : x % 64 ≠ b := by
  intro he
  have hx64 := Nat.div_add_mod x 64
  omega

theorem Grid.inv_set (g : Grid) (hwf : g.WF) (hpad : g.PadClear) (x y : Nat) (s : Bool) :
    (g.set x y s).WF ∧ (g.set x y s).PadClear := by
  cases s
  · rcases g.set_false_cases x y with h | ⟨hx, hy, hlen, h⟩
    · rw [h]
      exact ⟨hwf, hpad⟩
    · rw [h]
      have hold := g.wf_getD_lt hwf (y * g.stride + x / 64)
      have hstride : (y * g.stride + x / 64) % g.stride = x / 64 := g.chunk_mod_stride hwf hx
      constructor
      · refine ⟨hwf.1, by simpa [List.length_set] using hwf.2.1, ?_⟩
        intro c hc
        rcases List.mem_or_eq_of_mem_set hc with hc | rfl
        · exact hwf.2.2 c hc
        · exact Nat.lt_of_le_of_lt Nat.and_le_left hold
      · intro i hi b hb hcol
        have hi' : i < g.cells.length := by
          simpa [List.length_set] using hi
        have hcol' : g.width ≤ i % g.stride * 64 + b := hcol
        by_cases hic : i = y * g.stride + x / 64
        · subst hic
          show ((g.cells.set _ _).getD _ 0).testBit b = false
          rw [getD_set_self hlen, Nat.testBit_and,
            hpad _ hlen b hb hcol']
          rfl
        · show ((g.cells.set _ _).getD i 0).testBit b = false
          rw [getD_set_ne (Ne.symm hic)]
          exact hpad i hi' b hb hcol'
  · rcases g.set_true_cases x y with h | ⟨hx, hy, hlen, h⟩
    · rw [h]
      exact ⟨hwf, hpad⟩
    · rw [h]
      have hold := g.wf_getD_lt hwf (y * g.stride + x / 64)
      have hstride : (y * g.stride + x / 64) % g.stride = x / 64 := g.chunk_mod_stride hwf hx
      constructor
      · refine ⟨hwf.1, by simpa [List.length_set] using hwf.2.1, ?_⟩
        intro c hc
        rcases List.mem_or_eq_of_mem_set hc with hc | rfl
        · exact hwf.2.2 c hc
        · exact Nat.or_lt_two_pow hold (shiftLeft_mod64_lt x)
      · intro i hi b hb hcol
        have hi' : i < g.cells.length := by
          simpa [List.length_set] using hi
        have hcol' : g.width ≤ i % g.stride * 64 + b := hcol
        by_cases hic : i = y * g.stride + x / 64
        · subst hic
          have hcolx : g.width ≤ x / 64 * 64 + b := by
            rwa [hstride] at hcol'
          have hbne : x % 64 ≠ b := g.padbit_aux hx hcolx
          show ((g.cells.set _ _).getD _ 0).testBit b = false
          rw [getD_set_self hlen, Nat.testBit_or,
            hpad _ hlen b hb hcol', Nat.one_shiftLeft, Nat.testBit_two_pow]
          simp [hbne]
        · show ((g.cells.set _ _).getD i 0).testBit b = false
          rw [getD_set_ne (Ne.symm hic)]
          exact hpad i hi' b hb hcol'

theorem Grid.inv_toggle (g : Grid) (hwf : g.WF) (hpad : g.PadClear) (x y : Nat) :
    (g.toggle x y).WF ∧ (g.toggle x y).PadClear := by
  rcases g.toggle_cases x y with h | ⟨hx, hy, hlen, h⟩
  · rw [h]
    exact ⟨hwf, hpad⟩
  · rw [h]
    have hold := g.wf_getD_lt hwf (y * g.stride + x / 64)
    have hstride : (y * g.stride + x / 64) % g.stride = x / 64 := g.chunk_mod_stride hwf hx
    constructor
    · refine ⟨hwf.1, by simpa [List.length_set] using hwf.2.1, ?_⟩
      intro c hc
      rcases List.mem_or_eq_of_mem_set hc with hc | rfl
      · exact hwf.2.2 c hc
      · exact Nat.xor_lt_two_pow hold (shiftLeft_mod64_lt x)
    · intro i hi b hb hcol
      have hi' : i < g.cells.length := by
        simpa [List.length_set] using hi
      have hcol' : g.width ≤ i % g.stride * 64 + b := hcol
      by_cases hic : i = y * g.stride + x / 64
      · subst hic
        have hcolx : g.width ≤ x / 64 * 64 + b := by
          rwa [hstride] at hcol'
        have hbne : x % 64 ≠ b := g.padbit_aux hx hcolx
        show ((g.cells.set _ _).getD _ 0).testBit b = false
        rw [getD_set_self hlen, Nat.testBit_xor,
          hpad _ hlen b hb hcol', Nat.one_shiftLeft, Nat.testBit_two_pow]
        simp [hbne]
      · show ((g.cells.set _ _).getD i 0).testBit b = false
        rw [getD_set_ne (Ne.symm hic)]
        exact hpad i hi' b hb hcol'

theorem Grid.inv_clear (g : Grid) (hwf : g.WF) :
    g.clear.WF ∧ g.clear.PadClear := by
  constructor
  · refine ⟨hwf.1, by simpa [Grid.clear, List.length_map] using hwf.2.1, ?_⟩
    intro c hc
    obtain ⟨c', _, rfl⟩ := List.mem_map.mp hc
    exact Nat.two_pow_pos 64
  · intro i hi b hb hcol
    show ((g.cells.map fun _ => 0).getD i 0).testBit b = false
    rw [getD_map_const_zero]
    exact Nat.zero_testBit b

theorem Grid.inv_randomize (g : Grid) (h : g.WF ∧ g.PadClear) (rnd : Nat → Nat → Bool) :
    (g.randomize rnd).WF ∧ (g.randomize rnd).PadClear := by
  unfold Grid.randomize
  have hfold : ∀ (l : List (Nat × Nat)) (g' : Grid), g'.WF ∧ g'.PadClear →
      ((l.foldl (fun g'' p => g''.set p.1 p.2 (rnd p.1 p.2)) g').WF ∧
        (l.foldl (fun g'' p => g''.set p.1 p.2 (rnd p.1 p.2)) g').PadClear) := by
    intro l
    induction l with
    | nil => intro g' h'; exact h'
    | cons p l ih =>
        intro g' h'
        exact ih _ (g'.inv_set h'.1 h'.2 p.1 p.2 (rnd p.1 p.2))
  exact hfold _ g h

theorem applyUpdates_getD_lt (ups : List (Nat × Nat)) (cs : List Nat)
    (hcs : ∀ i, i < cs.length → cs.getD i 0 < 2 ^ 64)
    (hups : ∀ u ∈ ups, u.2 < 2 ^ 64) :
    ∀ i, i < (applyUpdates ups cs).length → (applyUpdates ups cs).getD i 0 < 2 ^ 64 := by
  induction ups generalizing cs with
  | nil => exact hcs
  | cons u ups ih =>
      show ∀ i, i < (applyUpdates ups _).length → _
      apply ih
      · intro i hi
        rw [List.length_set] at hi
        by_cases hic : i = u.1
        · subst hic
          rw [getD_set_self hi]
          exact Nat.or_lt_two_pow (hcs _ hi) (hups u (List.mem_cons_self u ups))
        · rw [getD_set_ne (Ne.symm hic)]
          exact hcs i hi
      · intro v hv
        exact hups v (List.mem_cons_of_mem u hv)

theorem foldlApply_getD_lt (rows : List (List (Nat × Nat))) (cs : List Nat)
    (hcs : ∀ i, i < cs.length → cs.getD i 0 < 2 ^ 64)
    (hrows : ∀ row ∈ rows, ∀ u ∈ row, u.2 < 2 ^ 64) :
    ∀ i, i < (rows.foldl (fun cs row => applyUpdates row cs) cs).length →
      (rows.foldl (fun cs row => applyUpdates row cs) cs).getD i 0 < 2 ^ 64 := by
  induction rows generalizing cs with
  | nil => exact hcs
  | cons r rows ih =>
      show ∀ i, i < (rows.foldl _ (applyUpdates r cs)).length → _
      apply ih
      · exact applyUpdates_getD_lt r cs hcs (hrows r (List.mem_cons_self r rows))
      · intro row hrow
        exact hrows row (List.mem_cons_of_mem r hrow)

theorem Grid.rowUpdates_snd_lt (g : Grid) (y : Nat) :
    ∀ u ∈ g.rowUpdates y, u.2 < 2 ^ 64 := by
  intro u hu
  obtain ⟨x, _, rfl⟩ := List.mem_map.mp hu
  exact shiftLeft_mod64_lt x

theorem Grid.inv_update (g : Grid) (hwf : g.WF) (hpad : g.PadClear) :
    g.update.WF ∧ g.update.PadClear := by
  constructor
  · refine ⟨hwf.1, ?_, ?_⟩
    · rw [g.update_cells_length]
      exact hwf.2.1
    · rw [forall_mem_iff_getD]
      rw [g.update_cells_eq]
      apply foldlApply_getD_lt
      · intro i hi
        rw [getD_replicate_zero]
        exact Nat.two_pow_pos 64
      · intro row hrow
        obtain ⟨y, _, rfl⟩ := List.mem_map.mp hrow
        exact g.rowUpdates_snd_lt y
  · intro i hi b hb hcol
    have hi' : i < g.cells.length := by
      have hlen := g.update_cells_length
      omega
    have hcol' : g.width ≤ i % g.stride * 64 + b := hcol
    show (g.update.cells.getD i 0).testBit b = false
    rw [g.update_getD_testBit i b hi']
    rw [List.any_eq_false]
    intro y' hy'
    intro hcon
    obtain ⟨x', hx', _, hchunk, hbit⟩ := (g.rowUpdates_any_iff _ _ _).mp hcon
    have hxs : x' / 64 < g.stride := by rw [hwf.1]; omega
    have hmod : i % g.stride = x' / 64 := by
      rw [← hchunk, Nat.add_comm, Nat.add_mul_mod_self_right, Nat.mod_eq_of_lt hxs]
    have hx64 := Nat.div_add_mod x' 64
    omega

theorem map_sum_eq_sum_getD (f : Nat → Nat) (cs : List Nat) :
    (cs.map f).sum = ∑ i ∈ Finset.range cs.length, f (cs.getD i 0) := by
  induction cs with
  | nil => simp
  | cons c cs ih =>
      simp only [List.map_cons, List.sum_cons, List.length_cons]
      rw [Finset.sum_range_succ']
      simp only [List.getD_cons_succ, List.getD_cons_zero]
      rw [ih]
      omega

theorem countP_filter_sum (n : Nat) (p : Nat → Bool) :
    ((List.range n).filter p).length = ∑ b ∈ Finset.range n, if p b then 1 else 0 := by
  induction n with
  | zero => simp
  | succ n ih =>
      rw [List.range_succ, List.filter_append, List.length_append, Finset.sum_range_succ, ih]
      cases hp : p n <;> simp [hp]

theorem count_ones64_eq_sum (w : Nat) :
    count_ones64 w = ∑ b ∈ Finset.range 64, if w.testBit b then 1 else 0 :=
  countP_filter_sum 64 _

theorem index_pack_lt {y s stride h : Nat} (hy : y < h) (hs : s < stride) :
    y * stride + s < stride * h := by
  calc y * stride + s < (y + 1) * stride := by
        rw [Nat.add_mul, Nat.one_mul]
        omega
    _ ≤ h * stride := Nat.mul_le_mul_right _ (by omega)
    _ = stride * h := Nat.mul_comm _ _

theorem Grid.row_count (g : Grid) (hwf : g.WF) (hpad : g.PadClear) (y : Nat)
    (hy : y < g.height) :
    ∑ s ∈ Finset.range g.stride, count_ones64 (g.cells.getD (y * g.stride + s) 0)
      = ∑ x ∈ Finset.range g.width, if g.get x y then 1 else 0 := by
  have hwle : g.width ≤ g.stride * 64 := by rw [hwf.1]; omega
  have he : ∀ s ∈ Finset.range g.stride, count_ones64 (g.cells.getD (y * g.stride + s) 0)
      = ∑ b ∈ Finset.range 64,
          if (g.cells.getD (y * g.stride + s) 0).testBit b then 1 else 0 :=
    fun s _ => count_ones64_eq_sum _
  rw [Finset.sum_congr rfl he]
  have h2 : (∑ s ∈ Finset.range g.stride, ∑ b ∈ Finset.range 64,
      if (g.cells.getD (y * g.stride + s) 0).testBit b then 1 else 0)
      = ∑ k ∈ Finset.range (g.stride * 64),
          if (g.cells.getD (y * g.stride + k / 64) 0).testBit (k % 64) then 1 else 0 := by
    rw [← Finset.sum_product']
    refine Finset.sum_nbij' (fun p => p.1 * 64 + p.2) (fun k => (k / 64, k % 64))
      ?_ ?_ ?_ ?_ ?_
    · intro p hp
      rw [Finset.mem_product, Finset.mem_range, Finset.mem_range] at hp
      rw [Finset.mem_range, Nat.mul_comm]
      exact index_pack_lt hp.1 hp.2
    · intro k hk
      rw [Finset.mem_range] at hk
      rw [Finset.mem_product, Finset.mem_range, Finset.mem_range]
      show k / 64 < g.stride ∧ k % 64 < 64
      omega
    · intro p hp
      rw [Finset.mem_product, Finset.mem_range, Finset.mem_range] at hp
      obtain ⟨p1, p2⟩ := p
      show ((p1 * 64 + p2) / 64, (p1 * 64 + p2) % 64) = (p1, p2)
      rw [Prod.mk.injEq]
      constructor
      · omega
      · omega
    · intro k hk
      show k / 64 * 64 + k % 64 = k
      omega
    · intro p hp
      rw [Finset.mem_product, Finset.mem_range, Finset.mem_range] at hp
      obtain ⟨p1, p2⟩ := p
      show (if (g.cells.getD (y * g.stride + p1) 0).testBit p2 then 1 else 0)
        = (if (g.cells.getD (y * g.stride + (p1 * 64 + p2) / 64) 0).testBit
            ((p1 * 64 + p2) % 64) then 1 else 0)
      have hdiv : (p1 * 64 + p2) / 64 = p1 := by omega
      have hmod : (p1 * 64 + p2) % 64 = p2 := by omega
      rw [hdiv, hmod]
  rw [h2]
  have h3 : ∀ k ∈ Finset.range (g.stride * 64), k ∉ Finset.range g.width →
      (if (g.cells.getD (y * g.stride + k / 64) 0).testBit (k % 64) then 1 else 0) = 0 := by
    intro k hk hnk
    rw [Finset.mem_range] at hk
    have hw : g.width ≤ k := by
      by_contra hcon
      exact hnk (Finset.mem_range.mpr (by omega))
    have hchunklt : y * g.stride + k / 64 < g.cells.length := by
      rw [hwf.2.1]
      exact index_pack_lt hy (by omega)
    have hmodstride : (y * g.stride + k / 64) % g.stride = k / 64 := by
      rw [Nat.add_comm, Nat.add_mul_mod_self_right, Nat.mod_eq_of_lt (by omega)]
    have hbit := hpad _ hchunklt (k % 64) (by omega) (by rw [hmodstride]; omega)
    rw [List.getD_eq_getElem?_getD] at hbit
    simp [hbit]
  rw [← Finset.sum_subset (Finset.range_subset.mpr hwle) h3]
  refine Finset.sum_congr rfl ?_
  intro x hx
  rw [Finset.mem_range] at hx
  have hci : y * g.stride + x / 64 < g.cells.length := g.chunk_lt hwf hx hy
  rw [Grid.get_eq_testBit g hx hy hci]

theorem Grid.count_alive_eq_card (g : Grid) (hwf : g.WF) (hpad : g.PadClear) :
    g.count_alive = ((Finset.range g.width ×ˢ Finset.range g.height).filter
      fun p => g.get p.1 p.2).card := by
  rw [Finset.card_filter, Finset.sum_product, Finset.sum_comm]
  show (g.cells.map count_ones64).sum = _
  rw [map_sum_eq_sum_getD, hwf.2.1]
  have h1 : ∑ i ∈ Finset.range (g.stride * g.height), count_ones64 (g.cells.getD i 0)
      = ∑ p ∈ Finset.range g.height ×ˢ Finset.range g.stride,
          count_ones64 (g.cells.getD (p.1 * g.stride + p.2) 0) := by
    refine Finset.sum_nbij' (fun i => (i / g.stride, i % g.stride))
      (fun p => p.1 * g.stride + p.2) ?_ ?_ ?_ ?_ ?_
    · intro i hi
      rw [Finset.mem_range] at hi
      have hs : 0 < g.stride := by
        rcases Nat.eq_zero_or_pos g.stride with h0 | h0
        · rw [h0] at hi
          omega
        · exact h0
      rw [Finset.mem_product, Finset.mem_range, Finset.mem_range]
      constructor
      · rw [Nat.div_lt_iff_lt_mul hs]
        rw [Nat.mul_comm]
        exact hi
      · exact Nat.mod_lt _ hs
    · intro p hp
      rw [Finset.mem_product, Finset.mem_range, Finset.mem_range] at hp
      rw [Finset.mem_range]
      exact index_pack_lt hp.1 hp.2
    · intro i hi
      show i / g.stride * g.stride + i % g.stride = i
      rw [Nat.mul_comm]
      exact Nat.div_add_mod i g.stride
    · intro p hp
      rw [Finset.mem_product, Finset.mem_range, Finset.mem_range] at hp
      obtain ⟨p1, p2⟩ := p
      have hs : 0 < g.stride := by omega
      show ((p1 * g.stride + p2) / g.stride, (p1 * g.stride + p2) % g.stride) = (p1, p2)
      have hdiv : (p1 * g.stride + p2) / g.stride = p1 := by
        rw [Nat.mul_comm p1 g.stride, Nat.mul_add_div hs, Nat.div_eq_of_lt hp.2, Nat.add_zero]
      have hmod : (p1 * g.stride + p2) % g.stride = p2 := by
        rw [Nat.add_comm, Nat.add_mul_mod_self_right, Nat.mod_eq_of_lt hp.2]
      rw [hdiv, hmod]
    · intro i hi
      have hrt : i / g.stride * g.stride + i % g.stride = i := by
        rw [Nat.mul_comm]
        exact Nat.div_add_mod i g.stride
      show count_ones64 (g.cells.getD i 0)
        = count_ones64 (g.cells.getD (i / g.stride * g.stride + i % g.stride) 0)
      rw [hrt]
  rw [h1, Finset.sum_product]
  exact Finset.sum_congr rfl fun y hy =>
    g.row_count hwf hpad y (Finset.mem_range.mp hy)

theorem Grid.inv_of_reachable (g : Grid) (hr : g.Reachable) :
    g.WF ∧ g.PadClear := by
  induction hr with
  | new w h b => exact Grid.inv_new w h b
  | set g x y s _ ih => exact g.inv_set ih.1 ih.2 x y s
  | toggle g x y _ ih => exact g.inv_toggle ih.1 ih.2 x y
  | clear g _ ih => exact g.inv_clear ih.1
  | randomize g rnd _ ih => exact g.inv_randomize ih rnd
  | update g _ ih => exact g.inv_update ih.1 ih.2

/-- C10: every grid reachable through `new`, `set`, `toggle`, `clear`,
`randomize` and `update` keeps all padding bits (columns `≥ width`) clear,
and consequently `count_alive()` — the sum of set bits across all words —
equals the number of in-range coordinates whose `get` is true. -/
theorem reachable_padding_and_count (g : Grid) (hr : g.Reachable) :
    g.PadClear ∧ g.count_alive
      = ((Finset.range g.width ×ˢ Finset.range g.height).filter
          fun p => g.get p.1 p.2).card := by
  obtain ⟨hwf, hpad⟩ := g.inv_of_reachable hr
  exact ⟨hpad, g.count_alive_eq_card hwf hpad⟩

/-! ## C6 and C8: persistence -/

theorem natToLE_length (k n : Nat) : (natToLE k n).length = k := by
  induction k generalizing n with
  | zero => rfl
  | succ k ih => simp [natToLE, ih]

theorem leToNat_natToLE (k n : Nat) : leToNat (natToLE k n) = n % 256 ^ k := by
  induction k generalizing n with
  | zero =>
      show (0 : Nat) = n % 256 ^ 0
      simp [Nat.mod_one]
  | succ k ih =>
      show n % 256 + 256 * leToNat (natToLE k (n / 256)) = n % 256 ^ (k + 1)
      rw [ih, pow_succ', Nat.mod_mul]

theorem readExact_append (k : Nat) (b1 b2 : List Nat) (hb : b1.length = k) :
    readExact k (b1 ++ b2) = some (b1, b2) := by
  unfold readExact
  rw [if_pos (by rw [List.length_append]; omega)]
  subst hb
  rw [List.take_left, List.drop_left]

theorem loadWords_ok : ∀ (cells ws : List Nat), cells.length = ws.length →
    (∀ w ∈ ws, w < 2 ^ 64) →
    loadWords cells ((ws.map fun c => natToLE 8 c).flatten) = (Except.ok (), ws) := by
  intro cells
  induction cells with
  | nil =>
      intro ws hlen _
      have : ws = [] := List.eq_nil_of_length_eq_zero (by simpa using hlen.symm)
      subst this
      rfl
  | cons c cs ih =>
      intro ws hlen hws
      cases ws with
      | nil => simp at hlen
      | cons w ws' =>
          show loadWords (c :: cs) (natToLE 8 w ++ (ws'.map fun c => natToLE 8 c).flatten)
            = (Except.ok (), w :: ws')
          rw [loadWords]
          simp only [readExact_append, natToLE_length]
          rw [ih ws' (by simpa using hlen) (fun v hv => hws v (List.mem_cons_of_mem w hv))]
          have hw64 : w < 18446744073709551616 := by
            have h := hws w (List.mem_cons_self w ws')
            omega
          simp [leToNat_natToLE, Nat.mod_eq_of_lt, hw64]

theorem pow256_4 : (256 : Nat) ^ 4 = 2 ^ 32 := by norm_num

theorem Grid.load_save_eq (g g' : Grid) (hwf : g.WF) (hwf' : g'.WF)
    (hw : g'.width = g.width) (hh : g'.height = g.height)
    (hw32 : g.width < 2 ^ 32) (hh32 : g.height < 2 ^ 32) :
    g'.load_from_file g.save_to_file = (Except.ok (), { g' with cells := g.cells }) := by
  have hsave : g.save_to_file
      = natToLE 4 g.width ++ (natToLE 4 g.height ++ (g.cells.map fun c => natToLE 8 c).flatten) := by
    unfold Grid.save_to_file
    rw [Nat.mod_eq_of_lt hw32, Nat.mod_eq_of_lt hh32, List.append_assoc]
  have hstride : g'.stride = g.stride := by
    rw [hwf'.1, hwf.1, hw]
  have hlen : g'.cells.length = g.cells.length := by
    rw [hwf'.2.1, hwf.2.1, hstride, hh]
  rw [hsave]
  unfold Grid.load_from_file
  simp only [readExact_append, natToLE_length, leToNat_natToLE, pow256_4,
    Nat.mod_eq_of_lt hw32, Nat.mod_eq_of_lt hh32]
  rw [if_neg (by omega)]
  rw [loadWords_ok g'.cells g.cells hlen
    ((forall_mem_iff_getD g.cells (· < 2 ^ 64)).mpr
      fun i hi => g.wf_getD_lt hwf i)]

/-- C6: `save_to_file` followed by `load_from_file` into a grid of
identical width and height succeeds and reproduces the exact original
state cell by cell. -/
theorem save_load_roundtrip (g g' : Grid) (hwf : g.WF) (hwf' : g'.WF)
    (hw : g'.width = g.width) (hh : g'.height = g.height)
    (hw32 : g.width < 2 ^ 32) (hh32 : g.height < 2 ^ 32) :
    (g'.load_from_file g.save_to_file).1 = Except.ok () ∧
    ∀ x y : Nat, (g'.load_from_file g.save_to_file).2.get x y = g.get x y := by
  rw [Grid.load_save_eq g g' hwf hwf' hw hh hw32 hh32]
  have hstride : g'.stride = g.stride := by
    rw [hwf'.1, hwf.1, hw]
  refine ⟨rfl, ?_⟩
  intro x y
  show Grid.get ⟨g'.width, g'.height, g'.stride, g.cells, g'.boundary⟩ x y = g.get x y
  unfold Grid.get
  rw [hw, hh, hstride]

/-- Witness for C6: a randomized-looking 70×3 Wrap grid (two words per
row) round-trips exactly. -/
theorem save_load_roundtrip_witness :
    ((Grid.new 70 3 BoundaryType.Fixed).load_from_file
      ((((Grid.new 70 3 BoundaryType.Wrap).set 0 0 true).set 69 2 true).set 33 1
        true).save_to_file).1 = Except.ok () ∧
    ((Grid.new 70 3 BoundaryType.Fixed).load_from_file
      ((((Grid.new 70 3 BoundaryType.Wrap).set 0 0 true).set 69 2 true).set 33 1
        true).save_to_file).2.get 69 2
      = ((((Grid.new 70 3 BoundaryType.Wrap).set 0 0 true).set 69 2 true).set 33 1
        true).get 69 2 := by
  have h := save_load_roundtrip
    ((((Grid.new 70 3 BoundaryType.Wrap).set 0 0 true).set 69 2 true).set 33 1 true)
    (Grid.new 70 3 BoundaryType.Fixed)
    (by decide) (by decide) (by decide) (by decide) (by decide) (by decide)
  exact ⟨h.1, h.2 69 2⟩

/-- C8: when the stored dimensions differ from the target grid's,
`load_from_file` fails with an invalid-data error whose message names both
dimension pairs, and the grid is returned exactly as it was. -/
theorem load_dimension_mismatch (g : Grid) (b1 b2 rest : List Nat)
    (hb1 : b1.length = 4) (hb2 : b2.length = 4)
    (hne : leToNat b1 ≠ g.width ∨ leToNat b2 ≠ g.height) :
    g.load_from_file (b1 ++ (b2 ++ rest))
      = (Except.error (IOError.invalidData
          (mismatchMsg (leToNat b1) (leToNat b2) g.width g.height)), g) := by
  unfold Grid.load_from_file
  simp only [readExact_append 4 b1 (b2 ++ rest) hb1, readExact_append 4 b2 rest hb2]
  rw [if_pos hne]

/-- Witness for C8: loading a 5×5 file into a 4×4 grid fails with the
invalid-data message and leaves the grid untouched. -/
theorem load_dimension_mismatch_witness :
    (Grid.new 4 4 BoundaryType.Wrap).load_from_file
      ([5, 0, 0, 0] ++ ([5, 0, 0, 0] ++ []))
      = (Except.error (IOError.invalidData
          (mismatchMsg (leToNat [5, 0, 0, 0]) (leToNat [5, 0, 0, 0])
            (Grid.new 4 4 BoundaryType.Wrap).width
            (Grid.new 4 4 BoundaryType.Wrap).height)),
        Grid.new 4 4 BoundaryType.Wrap) :=
  load_dimension_mismatch (Grid.new 4 4 BoundaryType.Wrap) [5, 0, 0, 0] [5, 0, 0, 0] []
    (by decide) (by decide) (by decide)

/-- Witness for C10: a reachable 5×3 grid with three mutations. -/
theorem reachable_padding_and_count_witness :
    ((((Grid.new 5 3 BoundaryType.Fixed).set 4 1 true).toggle 2 2).PadClear ∧
      (((Grid.new 5 3 BoundaryType.Fixed).set 4 1 true).toggle 2 2).count_alive
        = ((Finset.range (((Grid.new 5 3 BoundaryType.Fixed).set 4 1 true).toggle 2 2).width ×ˢ
            Finset.range (((Grid.new 5 3 BoundaryType.Fixed).set 4 1 true).toggle 2 2).height).filter
            fun p => (((Grid.new 5 3 BoundaryType.Fixed).set 4 1 true).toggle 2 2).get p.1 p.2).card) :=
  reachable_padding_and_count _
    (Grid.Reachable.toggle _ 2 2 (Grid.Reachable.set _ 4 1 true
      (Grid.Reachable.new 5 3 BoundaryType.Fixed)))


/-! ## C3: cycle detection classification -/

/-- C3: when the updated grid's hash is found in the history at an earlier
generation `p`, the step stops and classifies Stable: a still life with
`generations_to_stabilize = gen - 1` and no period when `gen - p = 1`,
otherwise an oscillator with `generations_to_stabilize = p` and
`oscillator_period = gen - p`; in both cases the current population is
recorded as the final population. -/
theorem analyzer_cycle_classification (a : PatternAnalyzer) (ip gen : Nat)
    (st : LoopState) (p : Nat)
    (hpop : st.grid.update.count_alive ≠ 0)
    (hhash : lookupHash (a.hash_grid st.grid.update) st.gridHistory = some p) :
    (analyzeStep a ip gen st).map stepClass
      = Except.ok (some (if gen - p = 1 then
          PatternType.StablePattern (gen - 1) none st.grid.update.count_alive
        else
          PatternType.StablePattern p (some (gen - p)) st.grid.update.count_alive)) := by
  simp only [analyzeStep, hhash]
  rw [if_neg hpop]
  by_cases hper : gen - p = 1
  · simp [hper, stepClass, Except.map]
  · simp [hper, stepClass, Except.map]

/-- Witness for C3: the block run at generation 1 (still-life case). -/
theorem analyzer_cycle_classification_witness :
    blockStart.grid.update.count_alive ≠ 0 ∧
    lookupHash (smallAnalyzer.hash_grid blockStart.grid.update) blockStart.gridHistory
      = some 0 ∧
    (analyzeStep smallAnalyzer 4 1 blockStart).map stepClass
      = Except.ok (some (if 1 - 0 = 1 then
          PatternType.StablePattern (1 - 1) none blockStart.grid.update.count_alive
        else
          PatternType.StablePattern 0 (some (1 - 0)) blockStart.grid.update.count_alive)) :=
  ⟨by decide, by decide,
    analyzer_cycle_classification smallAnalyzer 4 1 blockStart 0 (by decide) (by decide)⟩

/-! ## C9: degenerate seeds -/

theorem Grid.all_dead_of_count_zero (g : Grid) (h : g.count_alive = 0) (x y : Nat) :
    g.get x y = false := by
  by_cases hoob : g.width ≤ x ∨ g.height ≤ y
  · unfold Grid.get; rw [if_pos hoob]
  · by_cases hlen : g.cells.length ≤ y * g.stride + x / 64
    · unfold Grid.get; rw [if_neg hoob, if_pos hlen]
    · have hci : y * g.stride + x / 64 < g.cells.length := by omega
      unfold Grid.get
      rw [if_neg hoob, if_neg hlen, and_one_shiftLeft_bne]
      have hmem : g.cells.getD (y * g.stride + x / 64) 0 ∈ g.cells := by
        rw [List.getD_eq_getElem?_getD, List.getElem?_eq_getElem hci]
        exact List.getElem_mem hci
      have h' : (g.cells.map count_ones64).sum = 0 := h
      have hcnt : count_ones64 (g.cells.getD (y * g.stride + x / 64) 0) = 0 :=
        List.sum_eq_zero_iff.mp h' _ (List.mem_map_of_mem _ hmem)
      by_contra hbt
      have hb : (g.cells.getD (y * g.stride + x / 64) 0).testBit (x % 64) = true := by
        revert hbt; cases (g.cells.getD (y * g.stride + x / 64) 0).testBit (x % 64) <;> simp
      have hmemf : (x % 64) ∈ (List.range 64).filter
          (fun b => (g.cells.getD (y * g.stride + x / 64) 0).testBit b) :=
        List.mem_filter.mpr ⟨List.mem_range.mpr (Nat.mod_lt _ (by norm_num)), hb⟩
      have hpos := List.length_pos_of_mem hmemf
      unfold count_ones64 at hcnt
      omega

theorem Grid.count_neighbors_all_dead (g : Grid) (hdead : ∀ x y, g.get x y = false)
    (x y : Nat) : g.count_neighbors x y = 0 := by
  unfold Grid.count_neighbors
  rw [List.sum_eq_zero_iff]
  intro v hv
  obtain ⟨d, hd, rfl⟩ := List.mem_map.mp hv
  unfold Grid.neighborContrib
  cases hbd : g.boundary <;> simp [hdead]

theorem Grid.update_count_zero_of_count_zero (g : Grid) (h : g.count_alive = 0) :
    g.update.count_alive = 0 := by
  have hdead := g.all_dead_of_count_zero h
  have hword : ∀ ci, ci < g.cells.length → g.update.cells.getD ci 0 = 0 := by
    intro ci hci
    apply Nat.eq_of_testBit_eq
    intro b
    rw [Nat.zero_testBit, g.update_getD_testBit ci b hci]
    by_contra hany
    have hany' : ((List.range g.height).any fun yy =>
        (g.rowUpdates yy).any fun u => u.1 == ci && u.2.testBit b) = true := by
      revert hany
      cases ((List.range g.height).any fun yy =>
        (g.rowUpdates yy).any fun u => u.1 == ci && u.2.testBit b) <;> simp
    obtain ⟨yy, _, hrow⟩ := List.any_eq_true.mp hany'
    obtain ⟨xx, _, hwba, _, _⟩ := (g.rowUpdates_any_iff yy ci b).mp hrow
    unfold Grid.willBeAlive at hwba
    rw [hdead xx yy, g.count_neighbors_all_dead hdead] at hwba
    exact absurd hwba (by simp [lifeRule])
  have h' : (g.update.cells.map count_ones64).sum = 0 := by
    rw [List.sum_eq_zero_iff]
    intro v hv
    obtain ⟨w, hw, rfl⟩ := List.mem_map.mp hv
    obtain ⟨i, hi, hwi⟩ := List.getElem_of_mem hw
    have hlen : i < g.cells.length := by
      rw [← g.update_cells_length]; exact hi
    have hgd : g.update.cells.getD i 0 = w := by
      rw [List.getD_eq_getElem?_getD, List.getElem?_eq_getElem hi]
      simpa using hwi
    rw [← hgd, hword i hlen]
    decide
  exact h'

theorem analyzeStep_of_pop_zero (a : PatternAnalyzer) (ip gen : Nat) (st : LoopState)
    (hpop : st.grid.update.count_alive = 0) :
    analyzeStep a ip gen st = Except.ok (StepOutcome.stop
      { grid := st.grid.update
        stats := { st.stats with
          population_history := st.stats.population_history ++ [0]
          pattern_type := PatternType.ExtinctPattern gen }
        gridHistory := st.gridHistory
        centerHistory := st.centerHistory ++ [a.find_pattern_center st.grid.update] }) := by
  simp [analyzeStep, hpop]

theorem analyzeLoop_pop_zero (a : PatternAnalyzer) (ip f gen : Nat) (st : LoopState)
    (hpop : st.grid.update.count_alive = 0) :
    analyzeLoop a ip (f + 1) gen st = Except.ok
      { grid := st.grid.update
        stats := { st.stats with
          population_history := st.stats.population_history ++ [0]
          pattern_type := PatternType.ExtinctPattern gen }
        gridHistory := st.gridHistory
        centerHistory := st.centerHistory ++ [a.find_pattern_center st.grid.update] } := by
  simp only [analyzeLoop]
  rw [analyzeStep_of_pop_zero a ip gen st hpop]

theorem exceptBind_ok {ε α β : Type} (x : α) (f : α → Except ε β) :
    (Except.ok x >>= f) = f x := rfl

theorem exceptBind_error {ε α β : Type} (e : ε) (f : α → Except ε β) :
    ((Except.error e : Except ε α) >>= f) = Except.error e := rfl

theorem findSpaceshipPeriod_isSpaceship :
    ∀ (ps : List Nat) (ch : List (Nat × Nat)) (r : PatternType),
      findSpaceshipPeriod ch ps = Except.ok (some r) →
      ∃ per d, r = PatternType.SpaceshipPattern per d := by
  intro ps
  induction ps with
  | nil => intro ch r h; simp [findSpaceshipPeriod] at h
  | cons period rest ih =>
    intro ch r h
    unfold findSpaceshipPeriod at h
    split at h
    · exact ih ch r h
    · split at h
      · exact ih ch r h
      · cases hcd : collectDisplacements ch period (List.range (ch.length / period)) with
        | error e =>
          rw [hcd, exceptBind_error] at h
          exact absurd h (by simp)
        | ok ds =>
          rw [hcd, exceptBind_ok] at h
          split at h
          · injection h with h1
            injection h1 with h2
            exact ⟨period, ds.headD (0, 0), h2.symm⟩
          · exact ih ch r h

theorem detect_spaceship_isSpaceship (a : PatternAnalyzer) (ch : List (Nat × Nat))
    (ph : List Nat) (r : PatternType)
    (h : a.detect_spaceship ch ph = Except.ok (some r)) :
    ∃ per d, r = PatternType.SpaceshipPattern per d := by
  unfold PatternAnalyzer.detect_spaceship at h
  split at h
  · simp at h
  · split at h
    · simp at h
    · dsimp only at h
      split at h
      · simp at h
      · exact findSpaceshipPeriod_isSpaceship _ ch r h

theorem analyzeStep_cases (a : PatternAnalyzer) (ip gen : Nat) (st : LoopState) :
    (∀ st', analyzeStep a ip gen st = Except.ok (StepOutcome.next st') →
        st'.stats.pattern_type = st.stats.pattern_type) ∧
    (∀ st' k, analyzeStep a ip gen st = Except.ok (StepOutcome.stop st') →
        st'.stats.pattern_type = PatternType.ExtinctPattern k → k = gen) := by
  constructor
  · intro st' h
    simp only [analyzeStep] at h
    split at h
    · simp at h
    · split at h
      · simp at h
      · split at h
        · split at h
          · simp at h
          · simp at h
          · split at h
            · split at h
              · simp at h
              · injection h with h1
                injection h1 with h2
                rw [← h2]
            · injection h with h1
              injection h1 with h2
              rw [← h2]
        · split at h
          · split at h
            · simp at h
            · injection h with h1
              injection h1 with h2
              rw [← h2]
          · injection h with h1
            injection h1 with h2
            rw [← h2]
  · intro st' k h hk
    simp only [analyzeStep] at h
    split at h
    · injection h with h1
      injection h1 with h2
      rw [← h2] at hk
      dsimp only at hk
      injection hk with h3
      omega
    · split at h
      · injection h with h1
        injection h1 with h2
        rw [← h2] at hk
        dsimp only at hk
        split at hk <;> simp at hk
      · split at h
        · split at h
          · simp at h
          · rename_i pt hdet
            injection h with h1
            injection h1 with h2
            rw [← h2] at hk
            dsimp only at hk
            obtain ⟨per, d, hpt⟩ := detect_spaceship_isSpaceship _ _ _ _ hdet
            rw [hpt] at hk
            simp at hk
          · split at h
            · split at h
              · injection h with h1
                injection h1 with h2
                rw [← h2] at hk
                dsimp only at hk
                simp at hk
              · simp at h
            · simp at h
        · split at h
          · split at h
            · injection h with h1
              injection h1 with h2
              rw [← h2] at hk
              dsimp only at hk
              simp at hk
            · simp at h
          · simp at h

theorem analyzeLoop_extinct_ge (a : PatternAnalyzer) (ip : Nat) :
    ∀ (fuel gen : Nat) (st st' : LoopState),
      analyzeLoop a ip fuel gen st = Except.ok st' → 1 ≤ gen →
      ∀ k, st'.stats.pattern_type = PatternType.ExtinctPattern k →
        st.stats.pattern_type = PatternType.ExtinctPattern k ∨ gen ≤ k := by
  intro fuel
  induction fuel with
  | zero =>
    intro gen st st' h hgen k hk
    simp only [analyzeLoop] at h
    injection h with h1
    rw [h1]
    exact Or.inl hk
  | succ fuel ih =>
    intro gen st st' h hgen k hk
    simp only [analyzeLoop] at h
    cases hstep : analyzeStep a ip gen st with
    | error e =>
      rw [hstep] at h
      exact absurd h (by simp)
    | ok out =>
      rw [hstep] at h
      cases out with
      | stop s2 =>
        dsimp only at h
        injection h with h1
        right
        have hkg := (analyzeStep_cases a ip gen st).2 s2 k hstep (by rw [h1]; exact hk)
        omega
      | next s2 =>
        dsimp only at h
        have hnext := (analyzeStep_cases a ip gen st).1 s2 hstep
        rcases ih (gen + 1) s2 st' h (by omega) k hk with h2 | h2
        · left
          rw [← hnext]
          exact h2
        · right
          omega

/-- C9: a seed whose placed initial population is 0 is not an error:
`analyze_pattern` classifies it Extinct (at generation 1), and across all
runs `generations_to_extinction = 0` is impossible, so it can occur only
when the initial population is already 0. -/
theorem degenerate_seed_extinct (a : PatternAnalyzer) (pat : Pattern) (x y : Nat)
    (hmax : 1 ≤ a.max_generations)
    (hzero : (pat.place (Grid.new a.grid_size.1 a.grid_size.2 a.boundary) x y).count_alive
      = 0) :
    (a.analyze_pattern pat x y).map PatternStats.pattern_type
        = Except.ok (PatternType.ExtinctPattern 1) ∧
    ∀ (pat' : Pattern) (x' y' : Nat) (stats : PatternStats) (k : Nat),
      a.analyze_pattern pat' x' y' = Except.ok stats →
      stats.pattern_type = PatternType.ExtinctPattern k → 1 ≤ k := by
  constructor
  · obtain ⟨f, hf⟩ : ∃ f, a.max_generations = f + 1 := ⟨a.max_generations - 1, by omega⟩
    have hpop : (pat.place (Grid.new a.grid_size.1 a.grid_size.2 a.boundary) x
        y).update.count_alive = 0 :=
      Grid.update_count_zero_of_count_zero _ hzero
    simp only [PatternAnalyzer.analyze_pattern, hf]
    rw [analyzeLoop_pop_zero]
    · simp [Except.map]
    · exact hpop
  · intro pat' x' y' stats k h hk
    simp only [PatternAnalyzer.analyze_pattern] at h
    split at h
    · exact absurd h (by simp)
    · rename_i st' hloop
      injection h with h1
      rw [← h1] at hk
      dsimp only at hk
      rcases analyzeLoop_extinct_ge a _ a.max_generations 1 _ st' hloop (le_refl 1) k hk
        with h2 | h2
      · simp [PatternStats.init] at h2
      · exact h2

/-- Witness for C9: the empty pattern on the 4×4 Wrap analyzer. -/
theorem degenerate_seed_extinct_witness :
    1 ≤ smallAnalyzer.max_generations ∧
    (emptyPattern.place
        (Grid.new smallAnalyzer.grid_size.1 smallAnalyzer.grid_size.2
          smallAnalyzer.boundary) 1 1).count_alive = 0 ∧
    ((smallAnalyzer.analyze_pattern emptyPattern 1 1).map PatternStats.pattern_type
        = Except.ok (PatternType.ExtinctPattern 1) ∧
     ∀ (pat' : Pattern) (x' y' : Nat) (stats : PatternStats) (k : Nat),
       smallAnalyzer.analyze_pattern pat' x' y' = Except.ok stats →
       stats.pattern_type = PatternType.ExtinctPattern k → 1 ≤ k) :=
  ⟨by decide, by decide,
    degenerate_seed_extinct smallAnalyzer emptyPattern 1 1 (by decide) (by decide)⟩

/-! ## C4: packed-mirror equivalence -/

theorem foldl_coords {β : Type} (f : β → Nat × Nat → β) (init : β) (w h : Nat) :
    (coordsList w h).foldl f init
      = (List.range h).foldl
          (fun acc y => (List.range w).foldl (fun acc x => f acc (x, y)) acc) init := by
  have haux : ∀ (ys : List Nat) (init : β),
      ((ys.flatMap fun y => (List.range w).map fun x => (x, y)).foldl f init)
        = ys.foldl (fun acc y => (List.range w).foldl (fun acc x => f acc (x, y)) acc)
            init := by
    intro ys
    induction ys with
    | nil => intro init; rfl
    | cons y ys ih =>
      intro init
      rw [List.flatMap_cons, List.foldl_append, List.foldl_map, ih]
      rfl
  exact haux (List.range h) init

theorem mem_coordsList {w h : Nat} {p : Nat × Nat} :
    p ∈ coordsList w h ↔ p.1 < w ∧ p.2 < h := by
  unfold coordsList
  constructor
  · intro hp
    obtain ⟨y, hy, hm⟩ := List.mem_flatMap.mp hp
    obtain ⟨x, hx, rfl⟩ := List.mem_map.mp hm
    exact ⟨List.mem_range.mp hx, List.mem_range.mp hy⟩
  · rintro ⟨h1, h2⟩
    exact List.mem_flatMap.mpr ⟨p.2, List.mem_range.mpr h2,
      List.mem_map.mpr ⟨p.1, List.mem_range.mpr h1, rfl⟩⟩

theorem list_foldl_congr {α β : Type} (l : List α) (f g : β → α → β) (init : β)
    (h : ∀ acc, ∀ a ∈ l, f acc a = g acc a) :
    l.foldl f init = l.foldl g init := by
  induction l generalizing init with
  | nil => rfl
  | cons a l ih =>
    rw [List.foldl_cons, List.foldl_cons, h init a (List.mem_cons_self a l)]
    exact ih _ fun acc b hb => h acc b (List.mem_cons_of_mem a hb)

theorem fbit_eq_testBit (c i : Nat) : fbit c i = cond (c.testBit i) 1 0 := by
  unfold fbit
  rw [Nat.and_one_is_mod, Nat.testBit_to_div_mod, Nat.shiftRight_eq_div_pow]
  rcases Nat.mod_two_eq_zero_or_one (c / 2 ^ i) with h | h <;> rw [h] <;> simp

theorem packCells_lt (cs : List Nat) (h : ∀ w ∈ cs, w < 2 ^ 64) :
    packCells cs < 2 ^ (64 * cs.length) := by
  induction cs with
  | nil => simp [packCells]
  | cons w rest ih =>
    have hw := h w (List.mem_cons_self w rest)
    have hr := ih fun v hv => h v (List.mem_cons_of_mem w hv)
    show w + (packCells rest <<< 64) < 2 ^ (64 * (rest.length + 1))
    have hpow : 2 ^ (64 * (rest.length + 1)) = 2 ^ (64 * rest.length) * 2 ^ 64 := by
      rw [← pow_add]
      ring_nf
    rw [Nat.shiftLeft_eq, hpow]
    have hP1 : packCells rest + 1 ≤ 2 ^ (64 * rest.length) := hr
    have hmul := Nat.mul_le_mul_right (2 ^ 64) hP1
    have hstep : w + packCells rest * 2 ^ 64 < (packCells rest + 1) * 2 ^ 64 := by
      rw [Nat.add_mul, Nat.one_mul]
      omega
    omega

theorem packCells_shift (w P : Nat) (hw : w < 2 ^ 64) : (w + P <<< 64) >>> 64 = P := by
  rw [Nat.shiftLeft_eq, Nat.shiftRight_eq_div_pow,
    Nat.add_mul_div_right _ _ (Nat.two_pow_pos 64), Nat.div_eq_of_lt hw, Nat.zero_add]

theorem packCells_testBit (cs : List Nat) (h : ∀ w ∈ cs, w < 2 ^ 64)
    (q r : Nat) (hr : r < 64) :
    (packCells cs).testBit (64 * q + r) = (cs.getD q 0).testBit r := by
  induction cs generalizing q with
  | nil => simp [packCells, Nat.zero_testBit]
  | cons w rest ih =>
    have hw := h w (List.mem_cons_self w rest)
    cases q with
    | zero =>
      show (w + packCells rest <<< 64).testBit (64 * 0 + r) = w.testBit r
      rw [Nat.mul_zero, Nat.zero_add]
      have hmod : (w + packCells rest <<< 64) % 2 ^ 64 = w := by
        rw [Nat.shiftLeft_eq, Nat.add_mul_mod_self_right, Nat.mod_eq_of_lt hw]
      conv_rhs => rw [← hmod]
      rw [Nat.testBit_mod_two_pow]
      simp [hr]
    | succ q' =>
      show (w + packCells rest <<< 64).testBit (64 * (q' + 1) + r)
        = (rest.getD q' 0).testBit r
      have h2 : 64 * (q' + 1) + r = 64 + (64 * q' + r) := by ring
      rw [h2, ← Nat.testBit_shiftRight, packCells_shift w _ hw]
      exact ih (fun v hv => h v (List.mem_cons_of_mem w hv)) q'

theorem packCells_extract (cs : List Nat) (h : ∀ w ∈ cs, w < 2 ^ 64) (i : Nat) :
    (packCells cs >>> (64 * i)) &&& (2 ^ 64 - 1) = cs.getD i 0 := by
  induction cs generalizing i with
  | nil => simp [packCells]
  | cons w rest ih =>
    have hw := h w (List.mem_cons_self w rest)
    cases i with
    | zero =>
      show (w + packCells rest <<< 64) >>> (64 * 0) &&& (2 ^ 64 - 1) = w
      rw [Nat.mul_zero, Nat.shiftRight_zero, Nat.and_pow_two_sub_one_eq_mod,
        Nat.shiftLeft_eq, Nat.add_mul_mod_self_right, Nat.mod_eq_of_lt hw]
    | succ i' =>
      show (w + packCells rest <<< 64) >>> (64 * (i' + 1)) &&& (2 ^ 64 - 1)
        = rest.getD i' 0
      have h2 : 64 * (i' + 1) = 64 + 64 * i' := by ring
      rw [h2, Nat.shiftRight_add, packCells_shift w _ hw]
      exact ih (fun v hv => h v (List.mem_cons_of_mem w hv)) i'

theorem fbit_pack (g : Grid) (hwf : g.WF) (hpad : g.PadClear) (hs1 : g.stride = 1)
    {x y : Nat} (hx : x < 64) (hy : y < g.height) :
    fbit g.pack (64 * y + x) = cond (g.get x y) 1 0 := by
  rw [fbit_eq_testBit, Grid.pack, packCells_testBit g.cells hwf.2.2 y x hx]
  congr 1
  by_cases hxw : x < g.width
  · have hci : y * g.stride + x / 64 < g.cells.length := by
      rw [hwf.2.1, hs1]
      omega
    rw [Grid.get_eq_testBit g hxw hy hci]
    have e1 : y * g.stride + x / 64 = y := by
      rw [hs1]
      omega
    have e2 : x % 64 = x := Nat.mod_eq_of_lt hx
    rw [e1, e2]
  · have hget : g.get x y = false := by
      unfold Grid.get
      rw [if_pos (Or.inl (by omega))]
    rw [hget]
    have hlen : y < g.cells.length := by
      rw [hwf.2.1, hs1]
      omega
    have hc : g.width ≤ y % g.stride * 64 + x := by
      rw [hs1]
      simp [Nat.mod_one]
      omega
    exact hpad y hlen x hx hc

theorem natCast_emod_toNat (a b : Nat) :
    (((a : Nat) : Int).emod ((b : Nat) : Int)).toNat = a % b := by
  have h : ((a : Int)).emod (b : Int) = ((a % b : Nat) : Int) := by
    show ((a : Int)) % (b : Int) = ((a % b : Nat) : Int)
    exact_mod_cast (Int.natCast_mod a b).symm
  rw [h]
  rfl

theorem emod_add_toNat (x w : Nat) :
    (((x : Int) + 1).emod (w : Int)).toNat = (x + 1) % w := by
  have h1 : (x : Int) + 1 = ((x + 1 : Nat) : Int) := by push_cast; ring
  rw [h1, natCast_emod_toNat]

theorem emod_sub_toNat (x w : Nat) (hw : 0 < w) :
    (((x : Int) - 1).emod (w : Int)).toNat = (x + w - 1) % w := by
  have h1 : ((x : Int) - 1).emod (w : Int) = ((x : Int) + w - 1).emod (w : Int) := by
    have h0 : (x : Int) + w - 1 = (x : Int) - 1 + (w : Int) * 1 := by ring
    rw [h0]
    show ((x : Int) - 1) % (w : Int) = ((x : Int) - 1 + (w : Int) * 1) % (w : Int)
    exact (Int.add_mul_emod_self_left _ _ _).symm
  have h2 : (x : Int) + w - 1 = ((x + w - 1 : Nat) : Int) := by omega
  rw [h1, h2, natCast_emod_toNat]

theorem emod_zero_toNat (x w : Nat) (hx : x < w) :
    (((x : Int) + 0).emod (w : Int)).toNat = x := by
  have h1 : (x : Int) + 0 = ((x : Nat) : Int) := by push_cast; ring
  rw [h1, natCast_emod_toNat]
  exact Nat.mod_eq_of_lt hx

theorem lifeRule_fast (a : Bool) (n : Nat) :
    lifeRuleFast (cond a 1 0) n = lifeRule a n := by
  cases a
  · show lifeRuleFast 0 n = lifeRule false n
    rcases n with _ | _ | _ | _ | n <;> rfl
  · show lifeRuleFast 1 n = lifeRule true n
    rcases n with _ | _ | _ | _ | n <;> rfl

theorem count_neighbors_fast (g : Grid) (hwf : g.WF) (hpad : g.PadClear)
    (hs1 : g.stride = 1) (hb : g.boundary = BoundaryType.Wrap)
    (hw64 : g.width ≤ 64) {x y : Nat} (hx : x < g.width) (hy : y < g.height) :
    g.count_neighbors x y = fwrapNeighbors g.pack 64 g.width g.height x y := by
  have hw : 0 < g.width := by omega
  have hh : 0 < g.height := by omega
  have hexp : g.count_neighbors x y
      = g.neighborContrib x y (-1, -1) + (g.neighborContrib x y (0, -1) +
        (g.neighborContrib x y (1, -1) + (g.neighborContrib x y (-1, 0) +
        (g.neighborContrib x y (1, 0) + (g.neighborContrib x y (-1, 1) +
        (g.neighborContrib x y (0, 1) + (g.neighborContrib x y (1, 1) + 0))))))) := rfl
  have hc : ∀ d1 d2 : Int, g.neighborContrib x y (d1, d2)
      = if g.get (((x : Int) + d1).emod (g.width : Int)).toNat
            (((y : Int) + d2).emod (g.height : Int)).toNat then 1 else 0 := by
    intro d1 d2
    simp only [Grid.neighborContrib, hb]
  have e_xm : (((x : Int) + (-1)).emod (g.width : Int)).toNat
      = (x + g.width - 1) % g.width := by
    rw [show (x : Int) + (-1) = (x : Int) - 1 from by ring]
    exact emod_sub_toNat x g.width hw
  have e_xp : (((x : Int) + 1).emod (g.width : Int)).toNat = (x + 1) % g.width :=
    emod_add_toNat x g.width
  have e_x0 : (((x : Int) + 0).emod (g.width : Int)).toNat = x := emod_zero_toNat x _ hx
  have e_ym : (((y : Int) + (-1)).emod (g.height : Int)).toNat
      = (y + g.height - 1) % g.height := by
    rw [show (y : Int) + (-1) = (y : Int) - 1 from by ring]
    exact emod_sub_toNat y g.height hh
  have e_yp : (((y : Int) + 1).emod (g.height : Int)).toNat = (y + 1) % g.height :=
    emod_add_toNat y g.height
  have e_y0 : (((y : Int) + 0).emod (g.height : Int)).toNat = y := emod_zero_toNat y _ hy
  have hfb : ∀ X Y : Nat, X < g.width → Y < g.height →
      fbit g.pack (64 * Y + X) = if g.get X Y then 1 else 0 := by
    intro X Y hX hY
    rw [fbit_pack g hwf hpad hs1 (by omega) hY]
    cases g.get X Y <;> rfl
  have hexp2 : fwrapNeighbors g.pack 64 g.width g.height x y
      = fbit g.pack (64 * ((y + g.height - 1) % g.height) + (x + g.width - 1) % g.width)
        + fbit g.pack (64 * ((y + g.height - 1) % g.height) + x)
        + fbit g.pack (64 * ((y + g.height - 1) % g.height) + (x + 1) % g.width)
        + fbit g.pack (64 * y + (x + g.width - 1) % g.width)
        + fbit g.pack (64 * y + (x + 1) % g.width)
        + fbit g.pack (64 * ((y + 1) % g.height) + (x + g.width - 1) % g.width)
        + fbit g.pack (64 * ((y + 1) % g.height) + x)
        + fbit g.pack (64 * ((y + 1) % g.height) + (x + 1) % g.width) := rfl
  rw [hexp, hexp2,
    hc (-1) (-1), hc 0 (-1), hc 1 (-1), hc (-1) 0, hc 1 0, hc (-1) 1, hc 0 1, hc 1 1,
    e_xm, e_xp, e_x0, e_ym, e_yp, e_y0,
    hfb _ _ (Nat.mod_lt _ hw) (Nat.mod_lt _ hh),
    hfb _ _ hx (Nat.mod_lt _ hh),
    hfb _ _ (Nat.mod_lt _ hw) (Nat.mod_lt _ hh),
    hfb _ _ (Nat.mod_lt _ hw) hy,
    hfb _ _ (Nat.mod_lt _ hw) hy,
    hfb _ _ (Nat.mod_lt _ hw) (Nat.mod_lt _ hh),
    hfb _ _ hx (Nat.mod_lt _ hh),
    hfb _ _ (Nat.mod_lt _ hw) (Nat.mod_lt _ hh)]
  omega

theorem decide_eq_beq (m i : Nat) : decide (m = i) = (m == i) := by
  cases h : (m == i)
  · rw [beq_eq_false_iff_ne] at h
    simp [h]
  · rw [beq_iff_eq] at h
    simp [h]

theorem cond_or_mask_testBit (b : Bool) (acc m i : Nat) :
    (cond b (acc ||| (1 <<< m)) acc).testBit i = (acc.testBit i || (b && (m == i))) := by
  cases b
  · simp
  · simp only [cond_true, Bool.true_and, Nat.testBit_or, Nat.one_shiftLeft,
      Nat.testBit_two_pow, decide_eq_beq]

theorem foldl_testBit_or_any {α : Type} (l : List α) (step : Nat → α → Nat)
    (q : α → Bool) (i : Nat)
    (hstep : ∀ acc a, (step acc a).testBit i = (acc.testBit i || q a)) :
    ∀ acc0 : Nat, (l.foldl step acc0).testBit i = (acc0.testBit i || l.any q) := by
  induction l with
  | nil => intro acc0; simp
  | cons a l ih =>
    intro acc0
    rw [List.foldl_cons, ih, hstep, List.any_cons]
    cases acc0.testBit i <;> cases q a <;> simp

theorem fwrapUpdate_testBit (c w h i : Nat) :
    (fwrapUpdate c 64 w h).testBit i
      = (List.range h).any fun y => (List.range w).any fun x =>
          lifeRuleFast (fbit c (64 * y + x)) (fwrapNeighbors c 64 w h x y)
            && (64 * y + x == i) := by
  have hinner : ∀ (y : Nat) (acc : Nat),
      ((List.range w).foldl
        (fun acc x =>
          cond (lifeRuleFast (fbit c (64 * y + x)) (fwrapNeighbors c 64 w h x y))
            (acc ||| (1 <<< (64 * y + x))) acc) acc).testBit i
        = (acc.testBit i || (List.range w).any fun x =>
            lifeRuleFast (fbit c (64 * y + x)) (fwrapNeighbors c 64 w h x y)
              && (64 * y + x == i)) := by
    intro y acc
    exact foldl_testBit_or_any (List.range w)
      (fun acc x =>
        cond (lifeRuleFast (fbit c (64 * y + x)) (fwrapNeighbors c 64 w h x y))
          (acc ||| (1 <<< (64 * y + x))) acc)
      (fun x => lifeRuleFast (fbit c (64 * y + x)) (fwrapNeighbors c 64 w h x y)
        && (64 * y + x == i)) i
      (fun acc x => cond_or_mask_testBit _ acc _ i) acc
  unfold fwrapUpdate
  rw [foldl_testBit_or_any _ _ _ i (fun acc y => hinner y acc) 0]
  simp [Nat.zero_testBit]

theorem update_pack (g : Grid) (hwf : g.WF) (hpad : g.PadClear) (hs1 : g.stride = 1)
    (hb : g.boundary = BoundaryType.Wrap) (hw64 : g.width ≤ 64)
    (hw : 0 < g.width) (hh : 0 < g.height) :
    g.update.pack = fwrapUpdate g.pack 64 g.width g.height := by
  have hfast : ∀ xx yy, xx < g.width → yy < g.height →
      lifeRuleFast (fbit g.pack (64 * yy + xx))
          (fwrapNeighbors g.pack 64 g.width g.height xx yy)
        = g.willBeAlive xx yy := by
    intro xx yy hxx hyy
    rw [fbit_pack g hwf hpad hs1 (by omega) hyy, lifeRule_fast,
      ← count_neighbors_fast g hwf hpad hs1 hb hw64 hxx hyy]
    rfl
  apply Nat.eq_of_testBit_eq
  intro i
  rw [fwrapUpdate_testBit]
  obtain ⟨q, r, hqr, hr⟩ : ∃ q r, i = 64 * q + r ∧ r < 64 :=
    ⟨i / 64, i % 64, by omega, by omega⟩
  subst hqr
  have hupw : ∀ v ∈ g.update.cells, v < 2 ^ 64 := (g.inv_update hwf hpad).1.2.2
  rw [Grid.pack, packCells_testBit g.update.cells hupw q r hr]
  have hlen : g.update.cells.length = g.height := by
    rw [g.update_cells_length, hwf.2.1, hs1, Nat.one_mul]
  by_cases hq : q < g.height
  · have hci : q < g.cells.length := by
      rw [hwf.2.1, hs1]
      omega
    rw [g.update_getD_testBit q r hci]
    refine Bool.eq_iff_iff.mpr ?_
    rw [List.any_eq_true, List.any_eq_true]
    constructor
    · rintro ⟨yy, hyy, hrow⟩
      obtain ⟨xx, hxx, hwba, hchunk, hbit⟩ := (g.rowUpdates_any_iff yy q r).mp hrow
      rw [hs1] at hchunk
      have hx64 : xx < 64 := by omega
      have hyq : yy = q := by omega
      have hxr : xx = r := by omega
      refine ⟨yy, hyy, ?_⟩
      rw [List.any_eq_true]
      refine ⟨xx, List.mem_range.mpr hxx, ?_⟩
      rw [Bool.and_eq_true, beq_iff_eq]
      have hyym : yy < g.height := List.mem_range.mp hyy
      rw [hfast xx yy hxx hyym]
      exact ⟨hwba, by omega⟩
    · rintro ⟨yy, hyy, hrow2⟩
      rw [List.any_eq_true] at hrow2
      obtain ⟨xx, hxxm, hcond⟩ := hrow2
      rw [Bool.and_eq_true, beq_iff_eq] at hcond
      obtain ⟨hlife, heq⟩ := hcond
      have hxx : xx < g.width := List.mem_range.mp hxxm
      have hyyr : yy < g.height := List.mem_range.mp hyy
      rw [hfast xx yy hxx hyyr] at hlife
      refine ⟨yy, hyy, (g.rowUpdates_any_iff yy q r).mpr ⟨xx, hxx, hlife, ?_, ?_⟩⟩
      · rw [hs1]
        omega
      · omega
  · have h0 : g.update.cells.getD q 0 = 0 := by
      rw [List.getD_eq_getElem?_getD, List.getElem?_eq_none (by omega)]
      rfl
    rw [h0, Nat.zero_testBit]
    symm
    rw [List.any_eq_false]
    intro yy hyy
    simp only [Bool.not_eq_true]
    rw [List.any_eq_false]
    intro xx hxx
    simp only [Bool.not_eq_true]
    have hyyr : yy < g.height := List.mem_range.mp hyy
    have hxxr : xx < g.width := List.mem_range.mp hxx
    have hne : (64 * yy + xx == 64 * q + r) = false := by
      rw [beq_eq_false_iff_ne]
      omega
    rw [hne]
    simp

theorem foldl_coords2 {β : Type} (f : β → Nat → Nat → β) (init : β) (w h : Nat) :
    (coordsList w h).foldl (fun acc p => f acc p.1 p.2) init
      = (List.range h).foldl
          (fun acc y => (List.range w).foldl (fun acc x => f acc x y) acc) init :=
  foldl_coords (fun acc p => f acc p.1 p.2) init w h

theorem map_eq_range_map (cs : List Nat) (f : Nat → Nat) :
    cs.map f = (List.range cs.length).map fun i => f (cs.getD i 0) := by
  induction cs with
  | nil => rfl
  | cons w rest ih =>
    show f w :: rest.map f
      = (List.range (rest.length + 1)).map fun i => f ((w :: rest).getD i 0)
    rw [List.range_succ_eq_map, List.map_cons, List.map_map, ih]
    congr 1

theorem foldl_add_eq_sum (l : List Nat) (f : Nat → Nat) (init : Nat) :
    l.foldl (fun acc i => acc + f i) init = init + (l.map f).sum := by
  induction l generalizing init with
  | nil => simp
  | cons a l ih =>
    rw [List.foldl_cons, ih, List.map_cons, List.sum_cons]
    omega

theorem count_alive_fast (g : Grid) (hwf : g.WF) (hs1 : g.stride = 1) :
    g.count_alive = fpop g.pack g.height := by
  unfold Grid.count_alive fpop
  have hlen : g.cells.length = g.height := by
    rw [hwf.2.1, hs1, Nat.one_mul]
  rw [foldl_add_eq_sum (List.range g.height)
    (fun i => count_ones64 ((g.pack >>> (64 * i)) &&& (2 ^ 64 - 1))) 0, Nat.zero_add]
  rw [map_eq_range_map g.cells count_ones64, hlen]
  congr 1
  apply List.map_congr_left
  intro i _
  rw [Grid.pack, packCells_extract g.cells hwf.2.2 i]

theorem hash_fast (a : PatternAnalyzer) (g : Grid) (hwf : g.WF) (hpad : g.PadClear)
    (hs1 : g.stride = 1) (hd1 : a.grid_size.1 = g.width) (hd2 : a.grid_size.2 = g.height)
    (hw64 : g.width ≤ 64) :
    a.hash_grid g = fhash g.pack 64 g.width g.height := by
  unfold PatternAnalyzer.hash_grid fhash boolsHash
  rw [hd1, hd2, List.foldl_map,
    foldl_coords2 (fun acc X Y => 2 * acc + cond (g.get X Y) 1 0) 1 g.width g.height]
  apply list_foldl_congr
  intro acc y hy
  apply list_foldl_congr
  intro acc2 x hx
  have hxw : x < g.width := List.mem_range.mp hx
  have hyh : y < g.height := List.mem_range.mp hy
  rw [fbit_pack g hwf hpad hs1 (by omega) hyh]

theorem center_fold (l : List (Nat × Nat)) (p : Nat × Nat → Bool) :
    ∀ acc : Nat × Nat × Nat,
      l.foldl (fun acc q => cond (p q) (acc.1 + q.1, acc.2.1 + q.2, acc.2.2 + 1) acc) acc
        = (acc.1 + ((l.filter p).map Prod.fst).sum,
           acc.2.1 + ((l.filter p).map Prod.snd).sum,
           acc.2.2 + (l.filter p).length) := by
  induction l with
  | nil => intro acc; simp
  | cons a l ih =>
    intro acc
    rw [List.foldl_cons]
    cases hp : p a
    · rw [cond_false, ih, List.filter_cons_of_neg (by simp [hp])]
    · rw [cond_true, ih, List.filter_cons_of_pos (by simp [hp])]
      simp only [List.map_cons, List.sum_cons, List.length_cons, Prod.mk.injEq]
      refine ⟨by omega, by omega, by omega⟩

theorem center_fast (a : PatternAnalyzer) (g : Grid) (hwf : g.WF) (hpad : g.PadClear)
    (hs1 : g.stride = 1) (hd1 : a.grid_size.1 = g.width) (hd2 : a.grid_size.2 = g.height)
    (hw64 : g.width ≤ 64) :
    a.find_pattern_center g = fcenter g.pack 64 g.width g.height := by
  have haux : fcenterAux g.pack 64 g.width g.height
      = ((((coordsList g.width g.height).filter fun p => g.get p.1 p.2).map
            Prod.fst).sum,
         (((coordsList g.width g.height).filter fun p => g.get p.1 p.2).map
            Prod.snd).sum,
         ((coordsList g.width g.height).filter fun p => g.get p.1 p.2).length) := by
    unfold fcenterAux
    rw [← foldl_coords2
      (fun acc X Y => cond ((fbit g.pack (64 * Y + X)).beq 1)
        (acc.1 + X, acc.2.1 + Y, acc.2.2 + 1) acc) (0, 0, 0) g.width g.height]
    rw [list_foldl_congr (coordsList g.width g.height) _
      (fun acc q => cond (g.get q.1 q.2) (acc.1 + q.1, acc.2.1 + q.2, acc.2.2 + 1) acc)
      (0, 0, 0) ?_]
    · rw [center_fold (coordsList g.width g.height) (fun p => g.get p.1 p.2) (0, 0, 0)]
      simp
    · intro acc q hq
      obtain ⟨hq1, hq2⟩ := mem_coordsList.mp hq
      rw [fbit_pack g hwf hpad hs1 (by omega) hq2]
      dsimp only
      cases g.get q.1 q.2 <;> rfl
  unfold PatternAnalyzer.find_pattern_center fcenter
  rw [hd1, hd2, haux]

theorem goodGrid_update (a : PatternAnalyzer) (g : Grid) (hg : GoodGrid a g) :
    GoodGrid a g.update := by
  obtain ⟨hwf, hpad, hs1, hb, hd1, hd2, hw, hw64, hh⟩ := hg
  have hinv := g.inv_update hwf hpad
  exact ⟨hinv.1, hinv.2, hs1, hb, hd1, hd2, hw, hw64, hh⟩

theorem update_pack_good (a : PatternAnalyzer) (g : Grid) (hg : GoodGrid a g) :
    fwrapUpdate g.pack 64 a.grid_size.1 a.grid_size.2 = g.update.pack := by
  obtain ⟨hwf, hpad, hs1, hb, hd1, hd2, hw, hw64, hh⟩ := hg
  rw [← hd1, ← hd2]
  exact (update_pack g hwf hpad hs1 hb hw64 hw hh).symm

theorem fastStep_next_c (a : PatternAnalyzer) (ip gen : Nat) (st : FastState)
    (s : FastState) (h : fastStep a ip gen st = Except.ok (FastOutcome.next s)) :
    s.c = fwrapUpdate st.c 64 a.grid_size.1 a.grid_size.2 := by
  simp only [fastStep] at h
  split at h
  · simp at h
  · split at h
    · simp at h
    · split at h
      · split at h
        · simp at h
        · simp at h
        · split at h
          · split at h
            · simp at h
            · injection h with h1
              injection h1 with h2
              rw [← h2]
          · injection h with h1
            injection h1 with h2
            rw [← h2]
      · split at h
        · split at h
          · simp at h
          · injection h with h1
            injection h1 with h2
            rw [← h2]
        · injection h with h1
          injection h1 with h2
          rw [← h2]

theorem fastStep_eq (a : PatternAnalyzer) (ip gen : Nat) (g : Grid)
    (stats : PatternStats) (gh ch : List (Nat × Nat)) (hg : GoodGrid a g) :
    analyzeStep a ip gen ⟨g, stats, gh, ch⟩
      = Except.map
          (fun out => match out with
            | FastOutcome.stop s =>
                StepOutcome.stop ⟨g.update, s.stats, s.gridHistory, s.centerHistory⟩
            | FastOutcome.next s =>
                StepOutcome.next ⟨g.update, s.stats, s.gridHistory, s.centerHistory⟩)
          (fastStep a ip gen ⟨g.pack, stats, gh, ch⟩) := by
  have hup := update_pack_good a g hg
  obtain ⟨hwf, hpad, hs1, hb, hd1, hd2, hw, hw64, hh⟩ := hg
  have hgu := goodGrid_update a g ⟨hwf, hpad, hs1, hb, hd1, hd2, hw, hw64, hh⟩
  obtain ⟨hwfu, hpadu, _, _, _, _, _, _, _⟩ := hgu
  have hpop : fpop (fwrapUpdate g.pack 64 a.grid_size.1 a.grid_size.2) a.grid_size.2
      = g.update.count_alive := by
    rw [hup, ← hd2]
    exact (count_alive_fast g.update hwfu hs1).symm
  have hhash : fhash (fwrapUpdate g.pack 64 a.grid_size.1 a.grid_size.2) 64
      a.grid_size.1 a.grid_size.2 = a.hash_grid g.update := by
    rw [hup, ← hd1, ← hd2]
    exact (hash_fast a g.update hwfu hpadu hs1 hd1.symm hd2.symm hw64).symm
  have hcen : fcenter (fwrapUpdate g.pack 64 a.grid_size.1 a.grid_size.2) 64
      a.grid_size.1 a.grid_size.2 = a.find_pattern_center g.update := by
    rw [hup, ← hd1, ← hd2]
    exact (center_fast a g.update hwfu hpadu hs1 hd1.symm hd2.symm hw64).symm
  simp only [analyzeStep, fastStep]
  rw [hpop, hhash, hcen]
  by_cases hpz : g.update.count_alive = 0
  · rw [if_pos hpz, if_pos hpz]
    rfl
  · rw [if_neg hpz, if_neg hpz]
    cases hlk : lookupHash (a.hash_grid g.update) gh with
    | some p => rfl
    | none =>
      by_cases hlen : (ch ++ [a.find_pattern_center g.update]).length > 10
      · rw [if_pos hlen, if_pos hlen]
        cases hdet : a.detect_spaceship (ch ++ [a.find_pattern_center g.update])
            (stats.population_history ++ [g.update.count_alive]) with
        | error e => rfl
        | ok o =>
          cases o with
          | some pt => rfl
          | none =>
            by_cases hex : gen > 50 ∧ g.update.count_alive > ip * 2
            · rw [if_pos hex, if_pos hex]
              by_cases hgr :
                  ((g.update.count_alive : ℚ) - (ip : ℚ)) / (gen : ℚ) > 1 / 10
              · rw [if_pos hgr, if_pos hgr]
                rfl
              · rw [if_neg hgr, if_neg hgr]
                rfl
            · rw [if_neg hex, if_neg hex]
              rfl
      · rw [if_neg hlen, if_neg hlen]
        by_cases hex : gen > 50 ∧ g.update.count_alive > ip * 2
        · rw [if_pos hex, if_pos hex]
          by_cases hgr : ((g.update.count_alive : ℚ) - (ip : ℚ)) / (gen : ℚ) > 1 / 10
          · rw [if_pos hgr, if_pos hgr]
            rfl
          · rw [if_neg hgr, if_neg hgr]
            rfl
        · rw [if_neg hex, if_neg hex]
          rfl

theorem fastLoop_eq (a : PatternAnalyzer) (ip : Nat) :
    ∀ (fuel gen : Nat) (g : Grid) (stats : PatternStats) (gh ch : List (Nat × Nat)),
      GoodGrid a g →
      (analyzeLoop a ip fuel gen ⟨g, stats, gh, ch⟩).map LoopState.stats
        = (fastLoop a ip fuel gen ⟨g.pack, stats, gh, ch⟩).map FastState.stats := by
  intro fuel
  induction fuel with
  | zero =>
    intro gen g stats gh ch hg
    rfl
  | succ fuel ih =>
    intro gen g stats gh ch hg
    simp only [analyzeLoop, fastLoop]
    rw [fastStep_eq a ip gen g stats gh ch hg]
    cases hfs : fastStep a ip gen ⟨g.pack, stats, gh, ch⟩ with
    | error e => rfl
    | ok out =>
      cases out with
      | stop s => rfl
      | next s =>
        have hc : s.c = g.update.pack := by
          rw [fastStep_next_c a ip gen _ s hfs]
          exact update_pack_good a g hg
        rw [show s = FastState.mk g.update.pack s.stats s.gridHistory s.centerHistory
          from by rw [← hc]]
        exact ih (gen + 1) g.update s.stats s.gridHistory s.centerHistory
          (goodGrid_update a g hg)

theorem findSpaceshipPeriod_consistent :
    ∀ (ps : List Nat) (ch : List (Nat × Nat)) (per : Nat) (d : Int × Int),
      findSpaceshipPeriod ch ps
          = Except.ok (some (PatternType.SpaceshipPattern per d)) →
      ∃ ds, collectDisplacements ch per (List.range (ch.length / per)) = Except.ok ds ∧
        windowsAllEq ds = true ∧ ds.headD (0, 0) = d := by
  intro ps
  induction ps with
  | nil => intro ch per d h; simp [findSpaceshipPeriod] at h
  | cons period rest ih =>
    intro ch per d h
    unfold findSpaceshipPeriod at h
    split at h
    · exact ih ch per d h
    · split at h
      · exact ih ch per d h
      · cases hcd : collectDisplacements ch period (List.range (ch.length / period)) with
        | error e =>
          rw [hcd, exceptBind_error] at h
          exact absurd h (by simp)
        | ok ds =>
          rw [hcd, exceptBind_ok] at h
          split at h
          · rename_i hweq
            injection h with h1
            injection h1 with h2
            injection h2 with hper hd
            subst hper
            exact ⟨ds, hcd, hweq, hd⟩
          · exact ih ch per d h

theorem okPT_analyze_pattern (a : PatternAnalyzer) (pat : Pattern) (x y : Nat)
    (rf : Except String FastState)
    (heq : (analyzeLoop a
        ((pat.place (Grid.new a.grid_size.1 a.grid_size.2 a.boundary) x y).count_alive)
        a.max_generations 1
        ⟨pat.place (Grid.new a.grid_size.1 a.grid_size.2 a.boundary) x y,
         PatternStats.init pat.name
           ((pat.place (Grid.new a.grid_size.1 a.grid_size.2 a.boundary)
             x y).count_alive),
         [(a.hash_grid (pat.place (Grid.new a.grid_size.1 a.grid_size.2 a.boundary)
             x y), 0)],
         [a.find_pattern_center
           (pat.place (Grid.new a.grid_size.1 a.grid_size.2 a.boundary) x y)]⟩).map
        LoopState.stats = rf.map FastState.stats)
    (pt : PatternType) (hpt : fastPT rf = some pt) :
    okPT (a.analyze_pattern pat x y) = some pt := by
  cases rf with
  | error e => simp [fastPT] at hpt
  | ok fs =>
    simp only [fastPT] at hpt
    injection hpt with hpt2
    simp only [PatternAnalyzer.analyze_pattern]
    split
    · rename_i e hal
      rw [hal] at heq
      simp [Except.map] at heq
    · rename_i st hal
      rw [hal] at heq
      simp only [Except.map] at heq
      injection heq with hst
      dsimp only [okPT]
      rw [hst, hpt2]

/-! ## C4: glider classified as a diagonal spaceship -/

set_option maxRecDepth 100000 in
set_option maxHeartbeats 1000000 in
/-- C4: analyzing the 5-cell glider at (20, 20) for 40 generations under
Wrap on a 50×50 grid classifies it as a spaceship with period 4 and a
diagonal (both components nonzero) displacement; and a spaceship
classification always arises from a run of equal sampled displacements
whose common value it reports. -/
theorem glider_spaceship_classification :
    ∃ dx dy : Int, dx ≠ 0 ∧ dy ≠ 0 ∧
      okPT (gliderAnalyzer.analyze_pattern PatternLibrary.glider 20 20)
        = some (PatternType.SpaceshipPattern 4 (dx, dy)) ∧
      ∀ (ch : List (Nat × Nat)) (ps : List Nat) (per : Nat) (d : Int × Int),
        findSpaceshipPeriod ch ps
            = Except.ok (some (PatternType.SpaceshipPattern per d)) →
        ∃ ds, collectDisplacements ch per (List.range (ch.length / per))
            = Except.ok ds ∧ windowsAllEq ds = true ∧ ds.headD (0, 0) = d := by
  refine ⟨1, 1, by decide, by decide, ?_, ?_⟩
  · obtain ⟨hwf, hpad, hs1, hb, hd1, hd2, hw, hw64, hh⟩ :=
      (by decide! : GoodGrid gliderAnalyzer gliderGrid0)
    have hequiv := fastLoop_eq gliderAnalyzer gliderGrid0.count_alive
      gliderAnalyzer.max_generations 1 gliderGrid0
      (PatternStats.init PatternLibrary.glider.name gliderGrid0.count_alive)
      [(gliderAnalyzer.hash_grid gliderGrid0, 0)]
      [gliderAnalyzer.find_pattern_center gliderGrid0]
      ⟨hwf, hpad, hs1, hb, hd1, hd2, hw, hw64, hh⟩
    conv at hequiv =>
      rhs
      rw [count_alive_fast gliderGrid0 hwf hs1]
      rw [hash_fast gliderAnalyzer gliderGrid0 hwf hpad hs1 hd1.symm hd2.symm hw64]
      rw [center_fast gliderAnalyzer gliderGrid0 hwf hpad hs1 hd1.symm hd2.symm hw64]
    have hfast : fastPT (fastLoop gliderAnalyzer
        (fpop gliderGrid0.pack gliderGrid0.height) gliderAnalyzer.max_generations 1
        ⟨gliderGrid0.pack,
         PatternStats.init PatternLibrary.glider.name
           (fpop gliderGrid0.pack gliderGrid0.height),
         [(fhash gliderGrid0.pack 64 gliderGrid0.width gliderGrid0.height, 0)],
         [fcenter gliderGrid0.pack 64 gliderGrid0.width gliderGrid0.height]⟩)
        = some (PatternType.SpaceshipPattern 4 (1, 1)) := by decide!
    exact okPT_analyze_pattern gliderAnalyzer PatternLibrary.glider 20 20 _ hequiv
      _ hfast
  · intro ch ps per d h
    exact findSpaceshipPeriod_consistent ps ch per d h

/-! ## C5: a reachable out-of-bounds index in spaceship detection -/

theorem errOf_analyze_pattern (a : PatternAnalyzer) (pat : Pattern) (x y : Nat)
    (rf : Except String FastState)
    (heq : (analyzeLoop a
        ((pat.place (Grid.new a.grid_size.1 a.grid_size.2 a.boundary) x y).count_alive)
        a.max_generations 1
        ⟨pat.place (Grid.new a.grid_size.1 a.grid_size.2 a.boundary) x y,
         PatternStats.init pat.name
           ((pat.place (Grid.new a.grid_size.1 a.grid_size.2 a.boundary)
             x y).count_alive),
         [(a.hash_grid (pat.place (Grid.new a.grid_size.1 a.grid_size.2 a.boundary)
             x y), 0)],
         [a.find_pattern_center
           (pat.place (Grid.new a.grid_size.1 a.grid_size.2 a.boundary) x y)]⟩).map
        LoopState.stats = rf.map FastState.stats)
    (e : String) (hpt : fastErr rf = some e) :
    errOf (a.analyze_pattern pat x y) = some e := by
  cases rf with
  | ok fs => simp [fastErr] at hpt
  | error e2 =>
    simp only [fastErr] at hpt
    injection hpt with he
    subst he
    simp only [PatternAnalyzer.analyze_pattern]
    split
    · rename_i e3 hal
      rw [hal] at heq
      simp only [Except.map] at heq
      injection heq with he3
      dsimp only [errOf]
      rw [he3]
    · rename_i st hal
      rw [hal] at heq
      simp [Except.map] at heq

set_option maxRecDepth 100000 in
set_option maxHeartbeats 1000000 in
/-- C5 is refuted by this run: analyzing a glider beside a block at (0, 0)
on the 16×16 Wrap grid reaches generation 11 with a 12-entry centroid
history and a constant recent population, and spaceship detection then
indexes `center_history[(i + 1) * period]` at `i + 1 = samples = 12 / 2`,
i.e. position 12 of a 12-element vector: an out-of-bounds panic inside
`analyze_pattern`. -/
theorem spaceship_detection_index_out_of_bounds :
    errOf (panicAnalyzer.analyze_pattern panicPattern 0 0)
      = some "index out of bounds" := by
  obtain ⟨hwf, hpad, hs1, hb, hd1, hd2, hw, hw64, hh⟩ :=
    (by decide! : GoodGrid panicAnalyzer panicGrid0)
  have hequiv := fastLoop_eq panicAnalyzer panicGrid0.count_alive
    panicAnalyzer.max_generations 1 panicGrid0
    (PatternStats.init panicPattern.name panicGrid0.count_alive)
    [(panicAnalyzer.hash_grid panicGrid0, 0)]
    [panicAnalyzer.find_pattern_center panicGrid0]
    ⟨hwf, hpad, hs1, hb, hd1, hd2, hw, hw64, hh⟩
  conv at hequiv =>
    rhs
    rw [count_alive_fast panicGrid0 hwf hs1]
    rw [hash_fast panicAnalyzer panicGrid0 hwf hpad hs1 hd1.symm hd2.symm hw64]
    rw [center_fast panicAnalyzer panicGrid0 hwf hpad hs1 hd1.symm hd2.symm hw64]
  have hfast : fastErr (fastLoop panicAnalyzer
      (fpop panicGrid0.pack panicGrid0.height) panicAnalyzer.max_generations 1
      ⟨panicGrid0.pack,
       PatternStats.init panicPattern.name
         (fpop panicGrid0.pack panicGrid0.height),
       [(fhash panicGrid0.pack 64 panicGrid0.width panicGrid0.height, 0)],
       [fcenter panicGrid0.pack 64 panicGrid0.width panicGrid0.height]⟩)
      = some "index out of bounds" := by decide!
  exact errOf_analyze_pattern panicAnalyzer panicPattern 0 0 _ hequiv _ hfast

end Conway
